import Mathlib

/-!
# GDEV41 UI exercise: immediate-mode and retained-mode widgets

A shallow embedding of `src/immediate.cpp` (the `UiLibrary` struct with its
`hot` / `active` registry and the `Button` / `Checkbox` / `Label` evaluators)
and of `src/retained.cpp` (the `UIComponent` hierarchy with `Draw` and
`HandleClick`), followed by theorems about them.

Conventions of the embedding:

* C++ `int` widget ids are `Int`; no arithmetic is ever done on them.
* raylib's `float` coordinates are `Int`; the code only passes them through to
  raylib and never computes with them.
* raylib input polling (`IsMouseButtonPressed`, `IsMouseButtonReleased`,
  `GetMousePosition`) is sampled once per frame into an `Input` record.
* raylib drawing calls and calls through function pointers are recorded, in
  program order, in an output list.
-/

/-! ## The raylib collaborator -/

/-- Two coordinates, as raylib's `Vector2`. -/
structure Vector2 where
  x : Int
  y : Int
  deriving DecidableEq, Repr

/-- An axis-aligned rectangle, as raylib's `Rectangle`. -/
structure Rectangle where
  x : Int
  y : Int
  width : Int
  height : Int
  deriving DecidableEq, Repr

/-- The raylib colour constants the two programs use. -/
inductive Color where
  | GRAY | BLACK | SKYBLUE | DARKGREEN | GREEN | ORANGE | PINK | PURPLE | BLUE | RED | WHITE
  deriving DecidableEq, Repr

/-- Modelled from the spec: raylib's `CheckCollisionPointRec` is not part of
`src/`; the spec asks for a geometric containment test `PointInRect(point, rect)`
used consistently at all call sites. This is raylib's test, closed on the
left/top edge and open on the right/bottom edge. -/
def CheckCollisionPointRec (point : Vector2) (rec : Rectangle) : Bool :=
  decide (rec.x ≤ point.x) && decide (point.x < rec.x + rec.width) &&
  decide (rec.y ≤ point.y) && decide (point.y < rec.y + rec.height)

/-- A `void (*)()` function pointer, identified by the function it points to:
one of the three callbacks `retained.cpp` defines, or any other function. -/
inductive FnPtr where
  | sampleFunctionOnClick1
  | sampleFunctionOnClick2
  | sampleFunctionOnClick3
  | other (address : Nat)
  deriving DecidableEq, Repr

/-- The observable calls a frame makes into raylib or through a function
pointer, in program order. -/
inductive Cmd where
  | DrawRectangleRec (rec : Rectangle) (color : Color)
  | DrawText (text : String) (posX posY fontSize : Int) (color : Color)
  | SetWindowSize (width height : Int)
  | Call (f : FnPtr)
  | ClearBackground (color : Color)
  | BeginDrawing
  | EndDrawing
  deriving DecidableEq, Repr

/-- The input raylib reports during one frame. -/
structure Input where
  IsMouseButtonPressed : Bool
  IsMouseButtonReleased : Bool
  GetMousePosition : Vector2
  deriving DecidableEq, Repr

/-- Modelled from the spec: raylib's input polling is not part of `src/`. The
input contract reports whether the primary pointer button "transitioned to
pressed this frame" and whether it "transitioned to released this frame"; both
are read off the one button, from its state at the latest sample and its state
at the sample before (in raylib `currentButtonState` and
`previousButtonState`). -/
structure MouseButtonState where
  previousButtonState : Bool
  currentButtonState : Bool
  deriving DecidableEq, Repr

/-- Modelled from the spec: the input of a frame as it is reported from the
sampled button state and pointer position: pressed is up-then-down, released
is down-then-up. -/
def MouseButtonState.input (button : MouseButtonState) (position : Vector2) : Input :=
  { IsMouseButtonPressed := button.currentButtonState && !button.previousButtonState,
    IsMouseButtonReleased := !button.currentButtonState && button.previousButtonState,
    GetMousePosition := position }

/-- Modelled from the spec: the inputs of the successive frames of a loop. Each
frame has one sample of the button and of the pointer position; the state
sampled for one frame is the previous state of the next. The first argument is
the button state before the first sample. -/
def polledInputs : Bool → List (Bool × Vector2) → List Input
  | _, [] => []
  | previous, (current, position) :: rest =>
    MouseButtonState.input ⟨previous, current⟩ position :: polledInputs current rest

/-! ## `src/immediate.cpp` -/

namespace Immediate

/-- The `UiLibrary` struct: the ids of the hot and of the active widget,
`-1` for none. -/
structure UiLibrary where
  hot : Int := -1
  active : Int := -1
  deriving DecidableEq, Repr

/-- `UiLibrary::Button` (immediate.cpp 19-77): returns the click result, the
registry after the call and the two draw calls. -/
def UiLibrary.Button (ui : UiLibrary) (inp : Input) (id : Int) (text : String)
    (bounds : Rectangle) : Bool × UiLibrary × List Cmd := Id.run do
  let mut hot := ui.hot
  let mut active := ui.active
  let mut result := false
  let mut bgColor := Color.GRAY
  let mut color := Color.BLACK
  if id = active then
    color := Color.SKYBLUE
    bgColor := Color.DARKGREEN
    if inp.IsMouseButtonReleased then
      if id = hot then
        result := true
        bgColor := Color.GREEN
      active := -1
  if id = hot then
    if id ≠ active then
      bgColor := Color.GREEN
    if inp.IsMouseButtonPressed then
      active := id
  if CheckCollisionPointRec inp.GetMousePosition bounds then
    hot := id
  else if hot = id then
    hot := -1
    bgColor := Color.GRAY
  return (result, { hot := hot, active := active },
    [Cmd.DrawRectangleRec bounds bgColor, Cmd.DrawText text bounds.x bounds.y 14 color])

/-- `UiLibrary::Label` (immediate.cpp 79-81): draws and touches no state. -/
def UiLibrary.Label (ui : UiLibrary) (text : String) (bounds : Rectangle) :
    UiLibrary × List Cmd :=
  (ui, [Cmd.DrawText text bounds.x bounds.y 14 Color.PURPLE])

/-- `UiLibrary::Checkbox` (immediate.cpp 83-125): returns the would-be checked
value, the registry after the call and the two draw calls. -/
def UiLibrary.Checkbox (ui : UiLibrary) (inp : Input) (id : Int) (isChecked : Bool)
    (textOn textOff : String) (bounds : Rectangle) : Bool × UiLibrary × List Cmd := Id.run do
  let mut hot := ui.hot
  let mut active := ui.active
  let mut result := isChecked
  let bgColorOff := Color.ORANGE
  let bgColorOn := Color.PINK
  let mut bgColor := if result then bgColorOn else bgColorOff
  let mut color := Color.BLACK
  if id = active then
    color := Color.SKYBLUE
    bgColor := Color.DARKGREEN
    if inp.IsMouseButtonReleased then
      if id = hot then
        result := !isChecked
        bgColor := if result then bgColorOn else bgColorOff
      active := -1
  if id = hot then
    if id ≠ active then
      bgColor := Color.GREEN
    if inp.IsMouseButtonPressed then
      active := id
  if CheckCollisionPointRec inp.GetMousePosition bounds then
    hot := id
  else if hot = id then
    hot := -1
    bgColor := if isChecked then bgColorOn else bgColorOff
  return (result, { hot := hot, active := active },
    [Cmd.DrawRectangleRec bounds bgColor,
     Cmd.DrawText (if isChecked then textOn else textOff) bounds.x bounds.y 14 color])

/-- A frame loop whose body evaluates the single button `id` (the `while` loop
of `main` with one `Button` call as its body): one call per frame input; the
results of the calls are collected in frame order. -/
def runButton (id : Int) (text : String) (bounds : Rectangle) :
    UiLibrary → List Input → List Bool × UiLibrary
  | ui, [] => ([], ui)
  | ui, inp :: rest =>
    let r := ui.Button inp id text bounds
    let rs := runButton id text bounds r.2.1 rest
    (r.1 :: rs.1, rs.2)

/-- One evaluator call of a frame body, with the arguments the caller passes:
a `Button`, a `Checkbox` or a `Label`. -/
inductive Widget where
  | Button (id : Int) (text : String) (bounds : Rectangle)
  | Checkbox (id : Int) (isChecked : Bool) (textOn textOff : String) (bounds : Rectangle)
  | Label (text : String) (bounds : Rectangle)
  deriving DecidableEq, Repr

/-- The id a widget call passes to the library; a `Label` has none. -/
def Widget.id? : Widget → Option Int
  | .Button id _ _ => some id
  | .Checkbox id _ _ _ _ => some id
  | .Label _ _ => none

/-- The bounds a widget call passes to the library. -/
def Widget.bounds : Widget → Rectangle
  | .Button _ _ bounds => bounds
  | .Checkbox _ _ _ _ bounds => bounds
  | .Label _ bounds => bounds

/-- Evaluates one widget call: the value returned (none for the `void`
`Label`), the registry after the call and the draw calls. -/
def Widget.eval (ui : UiLibrary) (inp : Input) : Widget → Option Bool × UiLibrary × List Cmd
  | .Button id text bounds =>
    let r := ui.Button inp id text bounds
    (some r.1, r.2.1, r.2.2)
  | .Checkbox id isChecked textOn textOff bounds =>
    let r := ui.Checkbox inp id isChecked textOn textOff bounds
    (some r.1, r.2.1, r.2.2)
  | .Label text bounds =>
    let r := ui.Label text bounds
    (none, r.1, r.2)

/-- A frame body that evaluates the given widget calls in order, all with the
input of this frame: the returned values in evaluation order and the registry
after the last call. -/
def evalFrame (inp : Input) : UiLibrary → List Widget → List (Option Bool) × UiLibrary
  | ui, [] => ([], ui)
  | ui, w :: rest =>
    let r := w.eval ui inp
    let rs := evalFrame inp r.2.1 rest
    (r.1 :: rs.1, rs.2)

/-- One iteration of the `while` loop of `main` (immediate.cpp 138-152), from
the registry and the local `canResize`: the registry and `canResize` after the
iteration and the calls made, in program order. -/
def mainFrame (ui : UiLibrary) (canResize : Bool) (inp : Input) :
    UiLibrary × Bool × List Cmd :=
  let c := ui.Checkbox inp 10 canResize "Resolution resizable." "Resolution locked."
    ⟨10, 60, 80, 40⟩
  let canResize := c.1
  let b0 := c.2.1.Button inp 0 "800x600" ⟨10, 10, 80, 40⟩
  let b1 := b0.2.1.Button inp 1 "1000x600" ⟨100, 10, 80, 40⟩
  let b2 := b1.2.1.Button inp 2 "1200x600" ⟨190, 10, 80, 40⟩
  (b2.2.1, canResize,
    [Cmd.ClearBackground Color.WHITE, Cmd.BeginDrawing] ++ c.2.2 ++
    b0.2.2 ++ (if b0.1 && canResize then [Cmd.SetWindowSize 800 600] else []) ++
    b1.2.2 ++ (if b1.1 && canResize then [Cmd.SetWindowSize 1000 600] else []) ++
    b2.2.2 ++ (if b2.1 && canResize then [Cmd.SetWindowSize 1200 600] else []) ++
    [Cmd.EndDrawing])

/-- The `SetWindowSize` calls among a list of calls, in order. -/
def resizes (cmds : List Cmd) : List Cmd :=
  cmds.filter fun c =>
    match c with
    | .SetWindowSize _ _ => true
    | _ => false

end Immediate

/-! ## `src/retained.cpp` -/

namespace Retained

/-- The `UIComponent` hierarchy (retained.cpp 9-142) as a closed variant type:
every node carries the `bounds` of the base struct and the fields of its own
struct. A container holds its children in insertion order (`AddChild` is
`push_back`); the `UIComponent*` entries are modelled as the pointed-to nodes,
each owned by exactly one parent. -/
inductive UIComponent where
  | UIContainer (bounds : Rectangle) (children : List UIComponent)
  | Button (bounds : Rectangle) (text : String) (interactable : Bool) (functionOnClick : FnPtr)
  | Checkbox (bounds : Rectangle) (text textOn textOff : String) (isChecked : Bool)
      (hasBeenInteractedWith : Bool)
  | Label (bounds : Rectangle) (text : String)
  deriving Repr

/-- `UIContainer::AddChild` (retained.cpp 29): `children.push_back(child)`. -/
def AddChild (children : List UIComponent) (child : UIComponent) : List UIComponent :=
  children ++ [child]

mutual
/-- The virtual `HandleClick` (retained.cpp 45-59, 78-86, 107-118, 137-141):
returns the handled flag, the node after the call and the calls made through
function pointers. -/
def UIComponent.HandleClick : UIComponent → Vector2 → Bool × UIComponent × List Cmd
  | .UIContainer bounds children, clickPosition =>
    let r := HandleClickChildren children clickPosition
    (r.1, .UIContainer bounds r.2.1, r.2.2)
  | .Button bounds text interactable functionOnClick, clickPosition =>
    if CheckCollisionPointRec clickPosition bounds && interactable then
      (true, .Button bounds text interactable functionOnClick, [Cmd.Call functionOnClick])
    else
      (false, .Button bounds text interactable functionOnClick, [])
  | .Checkbox bounds text textOn textOff isChecked hasBeenInteractedWith, clickPosition =>
    if CheckCollisionPointRec clickPosition bounds then
      let hasBeenInteractedWith := if !hasBeenInteractedWith then true else hasBeenInteractedWith
      (true, .Checkbox bounds text textOn textOff (!isChecked) hasBeenInteractedWith, [])
    else
      (false, .Checkbox bounds text textOn textOff isChecked hasBeenInteractedWith, [])
  | .Label bounds text, _ => (false, .Label bounds text, [])
/-- The loop of `UIContainer::HandleClick` (retained.cpp 50-58) over the child
list in insertion order: the children after the head (added later, higher
index) are tried first; only when none of them handled the click is the head
tried. -/
def HandleClickChildren : List UIComponent → Vector2 → Bool × List UIComponent × List Cmd
  | [], _ => (false, [], [])
  | child :: later, clickPosition =>
    let r := HandleClickChildren later clickPosition
    if r.1 then (true, child :: r.2.1, r.2.2)
    else
      let c := child.HandleClick clickPosition
      (c.1, c.2.1 :: r.2.1, r.2.2 ++ c.2.2)
end

/-- The loop of `UIContainer::HandleClick` as written, by index:
`for (i = children.size(); i > 0; --i) if (children[i - 1]->HandleClick(p)) return true;`
and `return false` after it. The first argument is the loop variable `i`; the
result is `none` if `children[i - 1]` is ever out of range. -/
def HandleClickLoop (clickPosition : Vector2) :
    Nat → List UIComponent → Option (Bool × List UIComponent × List Cmd)
  | 0, children => some (false, children, [])
  | i + 1, children =>
    match children[i]? with
    | none => none
    | some child =>
      let c := child.HandleClick clickPosition
      if c.1 then some (true, children.set i c.2.1, c.2.2)
      else
        (HandleClickLoop clickPosition i (children.set i c.2.1)).map
          fun r => (r.1, r.2.1, c.2.2 ++ r.2.2)

mutual
/-- The virtual `Draw` (retained.cpp 32-40, 70-73, 96-105, 130-132): the
raylib calls made, in program order. -/
def UIComponent.Draw : UIComponent → List Cmd
  | .UIContainer _ children => DrawChildren children
  | .Button bounds text _ _ =>
    [Cmd.DrawRectangleRec bounds Color.GRAY, Cmd.DrawText text bounds.x bounds.y 14 Color.BLACK]
  | .Checkbox bounds text textOn textOff isChecked hasBeenInteractedWith =>
    let color := if isChecked then Color.BLUE else Color.RED
    [Cmd.DrawRectangleRec bounds color] ++
      (if hasBeenInteractedWith then
        let newText := if isChecked then textOn else textOff
        [Cmd.DrawText newText bounds.x bounds.y 14 Color.BLACK]
      else
        [Cmd.DrawText text bounds.x bounds.y 14 Color.BLACK])
  | .Label bounds text => [Cmd.DrawText text bounds.x bounds.y 14 Color.BLACK]
/-- The loop of `UIContainer::Draw` (retained.cpp 37-39), from index 0 up. -/
def DrawChildren : List UIComponent → List Cmd
  | [] => []
  | child :: rest => child.Draw ++ DrawChildren rest
end

/-- A checkbox as its constructor leaves it (retained.cpp 94, 121):
`isChecked = false`, `hasBeenInteractedWith = false`. -/
def newCheckbox (bounds : Rectangle) (text textOn textOff : String) : UIComponent :=
  .Checkbox bounds text textOn textOff false false

/-- A button as its constructor leaves it (retained.cpp 66):
`interactable = true`. -/
def newButton (bounds : Rectangle) (text : String) (functionOnClick : FnPtr) : UIComponent :=
  .Button bounds text true functionOnClick

/-- A sequence of `HandleClick` calls on one node, one per click point; the
handled flags and calls are dropped, the node after the last call is kept. -/
def clicks : UIComponent → List Vector2 → UIComponent
  | c, [] => c
  | c, p :: ps => clicks (c.HandleClick p).2.1 ps

/-- `ClickedLeaf c c2 t`: `c2` and the calls `t` arise from `c` by acting on
exactly one leaf: either one interactable button's `functionOnClick` is called
once and no node changes, or one checkbox has `isChecked` negated (and
`hasBeenInteractedWith` set) and nothing is called; every other node of the
tree is the same in `c` and `c2`. -/
inductive ClickedLeaf : UIComponent → UIComponent → List Cmd → Prop where
  | button (bounds : Rectangle) (text : String) (f : FnPtr) :
    ClickedLeaf (.Button bounds text true f) (.Button bounds text true f) [Cmd.Call f]
  | checkbox (bounds : Rectangle) (text textOn textOff : String) (isChecked h : Bool) :
    ClickedLeaf (.Checkbox bounds text textOn textOff isChecked h)
      (.Checkbox bounds text textOn textOff (!isChecked) true) []
  | child (bounds : Rectangle) (before : List UIComponent) (x x2 : UIComponent)
    (after : List UIComponent) (t : List Cmd) :
    ClickedLeaf x x2 t →
    ClickedLeaf (.UIContainer bounds (before ++ x :: after))
      (.UIContainer bounds (before ++ x2 :: after)) t

/-- The `UILibrary` struct (retained.cpp 145-160): the root container. -/
structure UILibrary where
  rootContainer : UIComponent

/-- `UILibrary::Update` (retained.cpp 150-156): on a release, one `HandleClick`
at the root with the pointer position, its result dropped. Returns the library
after the call and the calls made through function pointers. -/
def UILibrary.Update (ui : UILibrary) (inp : Input) : UILibrary × List Cmd :=
  if inp.IsMouseButtonReleased then
    let r := ui.rootContainer.HandleClick inp.GetMousePosition
    ({ rootContainer := r.2.1 }, r.2.2)
  else
    (ui, [])

/-- `UILibrary::Draw` (retained.cpp 159). -/
def UILibrary.Draw (ui : UILibrary) : List Cmd :=
  ui.rootContainer.Draw

/-- The widgets `main` builds before its loop (retained.cpp 173-205): the root
container with `button`, `button2`, `button3`, `label` and `checkbox` added in
this order. -/
def mainInit : UILibrary :=
  { rootContainer := .UIContainer ⟨10, 10, 600, 500⟩
      (AddChild (AddChild (AddChild (AddChild (AddChild []
        (newButton ⟨120, 10, 80, 40⟩ "800 x 600" FnPtr.sampleFunctionOnClick1))
        (newButton ⟨210, 10, 80, 40⟩ "1000 x 600" FnPtr.sampleFunctionOnClick2))
        (newButton ⟨300, 10, 80, 40⟩ "1200 x 600" FnPtr.sampleFunctionOnClick3))
        (.Label ⟨10, 20, 100, 40⟩ "Resolution"))
        (newCheckbox ⟨10, 60, 100, 40⟩ "Lock\nresolution?" "Resolution\nresizable"
          "Resolution\nlocked")) }

/-- The widgets of `main` (retained.cpp 173-205) with the given values of
their mutable fields: `interactable` of `button`, `button2` and `button3`, and
`isChecked` and `hasBeenInteractedWith` of `checkbox`. -/
def mainState (i1 i2 i3 isChecked h : Bool) : UILibrary :=
  { rootContainer := .UIContainer ⟨10, 10, 600, 500⟩
      [.Button ⟨120, 10, 80, 40⟩ "800 x 600" i1 FnPtr.sampleFunctionOnClick1,
       .Button ⟨210, 10, 80, 40⟩ "1000 x 600" i2 FnPtr.sampleFunctionOnClick2,
       .Button ⟨300, 10, 80, 40⟩ "1200 x 600" i3 FnPtr.sampleFunctionOnClick3,
       .Label ⟨10, 20, 100, 40⟩ "Resolution",
       .Checkbox ⟨10, 60, 100, 40⟩ "Lock\nresolution?" "Resolution\nresizable"
         "Resolution\nlocked" isChecked h] }

/-- The local `checkbox.isChecked` of `main`, read through the root container
(`checkbox` is its fifth child). -/
def checkboxIsChecked (ui : UILibrary) : Bool :=
  match ui.rootContainer with
  | .UIContainer _ [_, _, _, _, .Checkbox _ _ _ _ isChecked _] => isChecked
  | _ => false

/-- The `if (checkbox.isChecked) ... else ...` of `main` (retained.cpp 210-218):
sets `interactable` of `button`, `button2` and `button3` to true when
`checkbox.isChecked` holds and to false otherwise. -/
def syncInteractable (ui : UILibrary) : UILibrary :=
  match ui.rootContainer with
  | .UIContainer bounds [.Button b1 t1 _ f1, .Button b2 t2 _ f2, .Button b3 t3 _ f3, label,
      .Checkbox bc text textOn textOff isChecked h] =>
    { rootContainer := .UIContainer bounds
        [.Button b1 t1 (if isChecked then true else false) f1,
         .Button b2 t2 (if isChecked then true else false) f2,
         .Button b3 t3 (if isChecked then true else false) f3, label,
         .Checkbox bc text textOn textOff isChecked h] }
  | _ => ui

/-- One iteration of the `while` loop of `main` (retained.cpp 208-223):
`Update`, the copy of `checkbox.isChecked` into the buttons, then the drawing.
Returns the library after the iteration, the calls made during `Update` and
the calls made after it. -/
def mainFrame (ui : UILibrary) (inp : Input) : UILibrary × List Cmd × List Cmd :=
  let u := ui.Update inp
  let ui := syncInteractable u.1
  (ui, u.2,
    [Cmd.ClearBackground Color.WHITE, Cmd.BeginDrawing] ++ ui.Draw ++ [Cmd.EndDrawing])

/-- The library at the start of the iteration that follows the given frame
inputs, from the widgets `main` builds. -/
def mainLoop : UILibrary → List Input → UILibrary
  | ui, [] => ui
  | ui, inp :: rest => mainLoop (mainFrame ui inp).1 rest

end Retained

/-! ## Immediate mode: closed forms of one evaluator call -/

namespace Immediate

theorem Button_closed (ui : UiLibrary) (inp : Input) (id : Int) (text : String)
    (bounds : Rectangle) :
    (ui.Button inp id text bounds).1 =
      decide (id = ui.active ∧ inp.IsMouseButtonReleased = true ∧ id = ui.hot) ∧
    (ui.Button inp id text bounds).2.1 =
      { hot := if CheckCollisionPointRec inp.GetMousePosition bounds = true then id
               else if ui.hot = id then -1 else ui.hot,
        active := if id = ui.hot ∧ inp.IsMouseButtonPressed = true then id
               else if id = ui.active ∧ inp.IsMouseButtonReleased = true then -1
               else ui.active } := by
  obtain ⟨hot, active⟩ := ui
  obtain ⟨pressed, released, mouse⟩ := inp
  unfold UiLibrary.Button
  dsimp only [Id.run, pure, bind]
  rcases eq_or_ne id active with rfl | h1 <;> rcases eq_or_ne id hot with rfl | h2 <;>
    rcases eq_or_ne id (-1) with rfl | h3 <;>
    (try have h2s := h2.symm) <;>
    cases released <;> cases pressed <;> cases hc : CheckCollisionPointRec mouse bounds <;>
    simp [*]

theorem Checkbox_closed (ui : UiLibrary) (inp : Input) (id : Int) (isChecked : Bool)
    (textOn textOff : String) (bounds : Rectangle) :
    (ui.Checkbox inp id isChecked textOn textOff bounds).1 =
      (if id = ui.active ∧ inp.IsMouseButtonReleased = true ∧ id = ui.hot then !isChecked
      else isChecked) ∧
    (ui.Checkbox inp id isChecked textOn textOff bounds).2.1 =
      { hot := if CheckCollisionPointRec inp.GetMousePosition bounds = true then id
               else if ui.hot = id then -1 else ui.hot,
        active := if id = ui.hot ∧ inp.IsMouseButtonPressed = true then id
               else if id = ui.active ∧ inp.IsMouseButtonReleased = true then -1
               else ui.active } := by
  obtain ⟨hot, active⟩ := ui
  obtain ⟨pressed, released, mouse⟩ := inp
  unfold UiLibrary.Checkbox
  dsimp only [Id.run, pure, bind]
  rcases eq_or_ne id active with rfl | h1 <;> rcases eq_or_ne id hot with rfl | h2 <;>
    rcases eq_or_ne id (-1) with rfl | h3 <;>
    (try have h2s := h2.symm) <;>
    cases released <;> cases pressed <;> cases hc : CheckCollisionPointRec mouse bounds <;>
    simp [*]

theorem Button_fst (ui : UiLibrary) (inp : Input) (id : Int) (text : String)
    (bounds : Rectangle) :
    (ui.Button inp id text bounds).1 =
      decide (id = ui.active ∧ inp.IsMouseButtonReleased = true ∧ id = ui.hot) :=
  (Button_closed ui inp id text bounds).1

theorem Button_state (ui : UiLibrary) (inp : Input) (id : Int) (text : String)
    (bounds : Rectangle) :
    (ui.Button inp id text bounds).2.1 =
      { hot := if CheckCollisionPointRec inp.GetMousePosition bounds = true then id
               else if ui.hot = id then -1 else ui.hot,
        active := if id = ui.hot ∧ inp.IsMouseButtonPressed = true then id
               else if id = ui.active ∧ inp.IsMouseButtonReleased = true then -1
               else ui.active } :=
  (Button_closed ui inp id text bounds).2

theorem Checkbox_fst (ui : UiLibrary) (inp : Input) (id : Int) (isChecked : Bool)
    (textOn textOff : String) (bounds : Rectangle) :
    (ui.Checkbox inp id isChecked textOn textOff bounds).1 =
      (if id = ui.active ∧ inp.IsMouseButtonReleased = true ∧ id = ui.hot then !isChecked
      else isChecked) :=
  (Checkbox_closed ui inp id isChecked textOn textOff bounds).1

theorem Checkbox_state (ui : UiLibrary) (inp : Input) (id : Int) (isChecked : Bool)
    (textOn textOff : String) (bounds : Rectangle) :
    (ui.Checkbox inp id isChecked textOn textOff bounds).2.1 =
      { hot := if CheckCollisionPointRec inp.GetMousePosition bounds = true then id
               else if ui.hot = id then -1 else ui.hot,
        active := if id = ui.hot ∧ inp.IsMouseButtonPressed = true then id
               else if id = ui.active ∧ inp.IsMouseButtonReleased = true then -1
               else ui.active } :=
  (Checkbox_closed ui inp id isChecked textOn textOff bounds).2

/-! ## Immediate mode: one call -/

/-- C1. `Button` returns true if and only if, on entry, `id` equals `active`,
the release transition is signalled this frame and `id` equals `hot`; in every
other case it returns false. -/
theorem button_true_iff_commit (ui : UiLibrary) (inp : Input) (id : Int) (text : String)
    (bounds : Rectangle) :
    ((ui.Button inp id text bounds).1 = true ↔
      (id = ui.active ∧ inp.IsMouseButtonReleased = true ∧ id = ui.hot)) ∧
    ((ui.Button inp id text bounds).1 = false ↔
      ¬ (id = ui.active ∧ inp.IsMouseButtonReleased = true ∧ id = ui.hot)) := by
  rw [Button_fst]
  constructor
  · exact decide_eq_true_iff
  · exact decide_eq_false_iff_not

/-- C2, as stated, fails: with `active = id` and `hot = id` on entry, a release
frame whose pointer lies outside the bounds still commits. Registry `(3, 3)`,
widget 3 at `{10, 10, 5, 5}`, pointer at `(0, 0)`: `Button` returns true and
`Checkbox` called with `false` returns `true`. -/
theorem release_outside_bounds_still_commits :
    CheckCollisionPointRec ⟨0, 0⟩ ⟨10, 10, 5, 5⟩ = false ∧
    (UiLibrary.Button ⟨3, 3⟩ ⟨false, true, ⟨0, 0⟩⟩ 3 "b" ⟨10, 10, 5, 5⟩).1 = true ∧
    (UiLibrary.Checkbox ⟨3, 3⟩ ⟨false, true, ⟨0, 0⟩⟩ 3 false "on" "off" ⟨10, 10, 5, 5⟩).1
      = true := by
  decide

/-- C2, amended. The commit is decided by `hot` as it stands on entry, not by
the pointer position of the release frame. In a frame that signals release with
the pointer outside the bounds, `Button` returns false and `Checkbox` returns
`isChecked` unchanged whenever `hot` or `active` differs from `id` on entry;
with `active = id` and `hot = id` on entry `Button` returns true and
`Checkbox` returns the negation of `isChecked`. -/
theorem release_outside_commit_follows_entry_hot (ui : UiLibrary) (inp : Input) (id : Int)
    (text textOn textOff : String) (isChecked : Bool) (bounds : Rectangle)
    (hrel : inp.IsMouseButtonReleased = true)
    (_hout : CheckCollisionPointRec inp.GetMousePosition bounds = false) :
    ((ui.hot ≠ id ∨ ui.active ≠ id) →
      (ui.Button inp id text bounds).1 = false ∧
      (ui.Checkbox inp id isChecked textOn textOff bounds).1 = isChecked) ∧
    ((ui.hot = id ∧ ui.active = id) →
      (ui.Button inp id text bounds).1 = true ∧
      (ui.Checkbox inp id isChecked textOn textOff bounds).1 = !isChecked) := by
  rw [Button_fst, Checkbox_fst]
  constructor
  · intro h
    have hn : ¬ (id = ui.active ∧ inp.IsMouseButtonReleased = true ∧ id = ui.hot) := by
      rintro ⟨ha, -, hh⟩
      rcases h with h | h
      · exact h hh.symm
      · exact h ha.symm
    rw [decide_eq_false hn, if_neg hn]
    exact ⟨rfl, rfl⟩
  · rintro ⟨hh, ha⟩
    have hy : id = ui.active ∧ inp.IsMouseButtonReleased = true ∧ id = ui.hot :=
      ⟨ha.symm, hrel, hh.symm⟩
    rw [decide_eq_true hy, if_pos hy]
    exact ⟨rfl, rfl⟩

/-- Witness for the amended C2: registry `(-1, 3)` and registry `(3, 3)`,
widget 3, release with the pointer outside. -/
theorem release_outside_commit_follows_entry_hot_witness :
    (UiLibrary.Button ⟨-1, 3⟩ ⟨false, true, ⟨0, 0⟩⟩ 3 "b" ⟨10, 10, 5, 5⟩).1 = false ∧
    (UiLibrary.Button ⟨3, 3⟩ ⟨false, true, ⟨0, 0⟩⟩ 3 "b" ⟨10, 10, 5, 5⟩).1 = true :=
  ⟨((release_outside_commit_follows_entry_hot ⟨-1, 3⟩ ⟨false, true, ⟨0, 0⟩⟩ 3 "b" "on" "off"
      false ⟨10, 10, 5, 5⟩ rfl (by decide)).1 (Or.inl (by decide))).1,
   ((release_outside_commit_follows_entry_hot ⟨3, 3⟩ ⟨false, true, ⟨0, 0⟩⟩ 3 "b" "on" "off"
      false ⟨10, 10, 5, 5⟩ rfl (by decide)).2 ⟨rfl, rfl⟩).1⟩

/-- C6. After a `Button` or a `Checkbox` call for `id` the new `hot` is `id`
if the pointer lies inside the bounds, otherwise `-1` if `hot` equalled `id`,
otherwise the previous `hot`. So a call for `id` with the pointer outside its
bounds leaves a `hot` held by a different id as it is. -/
theorem hover_rule (ui : UiLibrary) (inp : Input) (id : Int) (text textOn textOff : String)
    (isChecked : Bool) (bounds : Rectangle) :
    (ui.Button inp id text bounds).2.1.hot =
      (if CheckCollisionPointRec inp.GetMousePosition bounds = true then id
       else if ui.hot = id then -1 else ui.hot) ∧
    (ui.Checkbox inp id isChecked textOn textOff bounds).2.1.hot =
      (if CheckCollisionPointRec inp.GetMousePosition bounds = true then id
       else if ui.hot = id then -1 else ui.hot) ∧
    (CheckCollisionPointRec inp.GetMousePosition bounds = false → ui.hot ≠ id →
      (ui.Button inp id text bounds).2.1.hot = ui.hot ∧
      (ui.Checkbox inp id isChecked textOn textOff bounds).2.1.hot = ui.hot) := by
  rw [Button_state, Checkbox_state]
  refine ⟨rfl, rfl, ?_⟩
  intro hout hne
  have hn : ¬ (CheckCollisionPointRec inp.GetMousePosition bounds = true) := by
    rw [hout]
    exact Bool.false_ne_true
  simp only [if_neg hn, if_neg hne, and_self]

/-- Witness for C6: widget 3 at `{10, 10, 5, 5}` evaluated with the pointer at
`(0, 0)` while widget 4 is hot: `hot` stays 4. -/
theorem hover_rule_witness :
    (UiLibrary.Button ⟨4, -1⟩ ⟨false, false, ⟨0, 0⟩⟩ 3 "b" ⟨10, 10, 5, 5⟩).2.1.hot = 4 ∧
    (UiLibrary.Checkbox ⟨4, -1⟩ ⟨false, false, ⟨0, 0⟩⟩ 3 true "on" "off"
      ⟨10, 10, 5, 5⟩).2.1.hot = 4 :=
  (hover_rule ⟨4, -1⟩ ⟨false, false, ⟨0, 0⟩⟩ 3 "b" "on" "off" true ⟨10, 10, 5, 5⟩).2.2
    (by decide) (by decide)

/-- C7. If `hot` equals `id` on entry and the press transition is signalled,
`active` equals `id` after the call whatever it was before; if the press
transition is signalled without a release and `hot` differs from `id` on entry,
the call leaves `active` unchanged. Both for `Button` and for `Checkbox`. -/
theorem press_start (ui : UiLibrary) (inp : Input) (id : Int) (text textOn textOff : String)
    (isChecked : Bool) (bounds : Rectangle) (hpress : inp.IsMouseButtonPressed = true) :
    (ui.hot = id →
      (ui.Button inp id text bounds).2.1.active = id ∧
      (ui.Checkbox inp id isChecked textOn textOff bounds).2.1.active = id) ∧
    (inp.IsMouseButtonReleased = false → ui.hot ≠ id →
      (ui.Button inp id text bounds).2.1.active = ui.active ∧
      (ui.Checkbox inp id isChecked textOn textOff bounds).2.1.active = ui.active) := by
  rw [Button_state, Checkbox_state]
  constructor
  · intro hh
    have hy : id = ui.hot ∧ inp.IsMouseButtonPressed = true := ⟨hh.symm, hpress⟩
    simp only [if_pos hy, and_self]
  · intro hrel hh
    have hn1 : ¬ (id = ui.hot ∧ inp.IsMouseButtonPressed = true) := fun h => hh h.1.symm
    have hn2 : ¬ (id = ui.active ∧ inp.IsMouseButtonReleased = true) := by
      rintro ⟨-, h⟩
      rw [hrel] at h
      exact Bool.false_ne_true h
    simp only [if_neg hn1, if_neg hn2, and_self]

/-- Witness for C7: widget 3 pressed while hot with `active = 7` before, and
pressed while widget 5 is hot. -/
theorem press_start_witness :
    (UiLibrary.Button ⟨3, 7⟩ ⟨true, false, ⟨0, 0⟩⟩ 3 "b" ⟨10, 10, 5, 5⟩).2.1.active = 3 ∧
    (UiLibrary.Button ⟨5, 7⟩ ⟨true, false, ⟨0, 0⟩⟩ 3 "b" ⟨10, 10, 5, 5⟩).2.1.active = 7 :=
  ⟨((press_start ⟨3, 7⟩ ⟨true, false, ⟨0, 0⟩⟩ 3 "b" "on" "off" false ⟨10, 10, 5, 5⟩ rfl).1
      rfl).1,
   ((press_start ⟨5, 7⟩ ⟨true, false, ⟨0, 0⟩⟩ 3 "b" "on" "off" false ⟨10, 10, 5, 5⟩ rfl).2
      rfl (by decide)).1⟩

/-- A frame reports at most one of the two transitions of the button. -/
theorem input_released_not_pressed (button : MouseButtonState) (position : Vector2)
    (hrel : (button.input position).IsMouseButtonReleased = true) :
    (button.input position).IsMouseButtonPressed = false := by
  obtain ⟨previous, current⟩ := button
  cases previous <;> cases current <;> simp_all [MouseButtonState.input]

theorem input_pressed_not_released (button : MouseButtonState) (position : Vector2)
    (hpress : (button.input position).IsMouseButtonPressed = true) :
    (button.input position).IsMouseButtonReleased = false := by
  obtain ⟨previous, current⟩ := button
  cases previous <;> cases current <;> simp_all [MouseButtonState.input]

/-- C8. For every registry state and every frame input (every sampled button
state and pointer position) in which `id` equals `active` on entry and the
release transition is signalled, `active` is `-1` when the `Button` or
`Checkbox` call for `id` returns, whatever `hot` is, that is whether or not
the commit fired. -/
theorem release_clears_active (ui : UiLibrary) (button : MouseButtonState)
    (position : Vector2) (id : Int) (text textOn textOff : String) (isChecked : Bool)
    (bounds : Rectangle) (hact : id = ui.active)
    (hrel : (button.input position).IsMouseButtonReleased = true) :
    (ui.Button (button.input position) id text bounds).2.1.active = -1 ∧
    (ui.Checkbox (button.input position) id isChecked textOn textOff bounds).2.1.active
      = -1 := by
  have hp := input_released_not_pressed button position hrel
  rw [Button_state, Checkbox_state]
  have hn1 : ¬ (id = ui.hot ∧ (button.input position).IsMouseButtonPressed = true) := by
    rw [hp]
    exact fun h => Bool.false_ne_true h.2
  have hy2 : id = ui.active ∧ (button.input position).IsMouseButtonReleased = true :=
    ⟨hact, hrel⟩
  simp only [if_neg hn1, if_pos hy2, and_self]

/-- Witness for C8: widget 3 active and hot, the button sampled down and then
up with the pointer at `(12, 12)` inside the bounds; the commit fires and
`active` is cleared. -/
theorem release_clears_active_witness :
    (UiLibrary.Button ⟨3, 3⟩ (MouseButtonState.input ⟨true, false⟩ ⟨12, 12⟩) 3 "b"
      ⟨10, 10, 5, 5⟩).1 = true ∧
    (UiLibrary.Button ⟨3, 3⟩ (MouseButtonState.input ⟨true, false⟩ ⟨12, 12⟩) 3 "b"
      ⟨10, 10, 5, 5⟩).2.1.active = -1 ∧
    (UiLibrary.Checkbox ⟨3, 3⟩ (MouseButtonState.input ⟨true, false⟩ ⟨12, 12⟩) 3 true
      "on" "off" ⟨10, 10, 5, 5⟩).2.1.active = -1 :=
  ⟨by decide,
   release_clears_active ⟨3, 3⟩ ⟨true, false⟩ ⟨12, 12⟩ 3 "b" "on" "off" true ⟨10, 10, 5, 5⟩
    rfl rfl⟩

/-! ## Immediate mode: frame sequences of a single button -/

theorem runButton_nil (id : Int) (text : String) (bounds : Rectangle) (ui : UiLibrary) :
    runButton id text bounds ui [] = ([], ui) := rfl

theorem runButton_cons (id : Int) (text : String) (bounds : Rectangle) (ui : UiLibrary)
    (inp : Input) (rest : List Input) :
    runButton id text bounds ui (inp :: rest) =
      ((ui.Button inp id text bounds).1 ::
          (runButton id text bounds (ui.Button inp id text bounds).2.1 rest).1,
        (runButton id text bounds (ui.Button inp id text bounds).2.1 rest).2) := rfl

theorem runButton_append (id : Int) (text : String) (bounds : Rectangle) (ui : UiLibrary)
    (xs ys : List Input) :
    runButton id text bounds ui (xs ++ ys) =
      ((runButton id text bounds ui xs).1 ++
          (runButton id text bounds (runButton id text bounds ui xs).2 ys).1,
        (runButton id text bounds (runButton id text bounds ui xs).2 ys).2) := by
  induction xs generalizing ui with
  | nil => simp [runButton_nil]
  | cons x xs ih => simp [runButton_cons, ih]

/-- One quiet frame with the pointer inside the bounds, entered with
`hot = active = id`: the call returns false and the registry is unchanged. -/
theorem Button_hold (id : Int) (text : String) (bounds : Rectangle) (inp : Input)
    (hp : inp.IsMouseButtonPressed = false) (hr : inp.IsMouseButtonReleased = false)
    (hin : CheckCollisionPointRec inp.GetMousePosition bounds = true) :
    (UiLibrary.Button ⟨id, id⟩ inp id text bounds).1 = false ∧
    (UiLibrary.Button ⟨id, id⟩ inp id text bounds).2.1 = ⟨id, id⟩ := by
  rw [Button_fst, Button_state]
  simp [hp, hr, hin]

/-- Quiet frames with the pointer inside the bounds keep `hot = active = id`
and return false every time. -/
theorem runButton_hold (id : Int) (text : String) (bounds : Rectangle) (mid : List Input)
    (hmid : ∀ m ∈ mid, m.IsMouseButtonPressed = false ∧ m.IsMouseButtonReleased = false ∧
      CheckCollisionPointRec m.GetMousePosition bounds = true) :
    runButton id text bounds ⟨id, id⟩ mid = (List.replicate mid.length false, ⟨id, id⟩) := by
  induction mid with
  | nil => rfl
  | cons m mid ih =>
    obtain ⟨hp, hr, hin⟩ := hmid m (List.mem_cons_self m mid)
    have h := Button_hold id text bounds m hp hr hin
    rw [runButton_cons, h.1, h.2, ih (fun x hx => hmid x (List.mem_cons_of_mem m hx))]
    rfl

/-- One quiet frame with the pointer outside the bounds, entered with
`active = id`: the call returns false, `active` stays and `hot` ends up
different from `id`, provided `id` is not `-1`. -/
theorem Button_drag (id : Int) (hid : id ≠ -1) (text : String) (bounds : Rectangle)
    (hot : Int) (inp : Input)
    (hp : inp.IsMouseButtonPressed = false) (hr : inp.IsMouseButtonReleased = false)
    (hout : CheckCollisionPointRec inp.GetMousePosition bounds = false) :
    (UiLibrary.Button ⟨hot, id⟩ inp id text bounds).1 = false ∧
    (UiLibrary.Button ⟨hot, id⟩ inp id text bounds).2.1.active = id ∧
    (UiLibrary.Button ⟨hot, id⟩ inp id text bounds).2.1.hot ≠ id := by
  rw [Button_fst, Button_state]
  simp only [hp, hr, hout, Bool.false_eq_true, and_false, false_and, decide_False, if_false,
    true_and]
  split_ifs with h
  · exact fun h2 => hid h2.symm
  · exact h

/-- Quiet frames with the pointer outside the bounds, the first entered with
`active = id`: every call returns false, `active` stays `id` and `hot` ends
up different from `id`. -/
theorem runButton_drag (id : Int) (hid : id ≠ -1) (text : String) (bounds : Rectangle)
    (hot : Int) (d : Input) (ds : List Input)
    (hds : ∀ m ∈ d :: ds, m.IsMouseButtonPressed = false ∧ m.IsMouseButtonReleased = false ∧
      CheckCollisionPointRec m.GetMousePosition bounds = false) :
    (runButton id text bounds ⟨hot, id⟩ (d :: ds)).1 = List.replicate (ds.length + 1) false ∧
    (runButton id text bounds ⟨hot, id⟩ (d :: ds)).2.active = id ∧
    (runButton id text bounds ⟨hot, id⟩ (d :: ds)).2.hot ≠ id := by
  induction ds generalizing hot d with
  | nil =>
    obtain ⟨hp, hr, hout⟩ := hds d (List.mem_cons_self d [])
    obtain ⟨h1, h2, h3⟩ := Button_drag id hid text bounds hot d hp hr hout
    rw [runButton_cons, runButton_nil]
    exact ⟨by rw [h1]; rfl, h2, h3⟩
  | cons e es ih =>
    obtain ⟨hp, hr, hout⟩ := hds d (List.mem_cons_self d _)
    obtain ⟨h1, h2, -⟩ := Button_drag id hid text bounds hot d hp hr hout
    rw [runButton_cons]
    have hst : ∀ u : UiLibrary, u.active = id → u = ⟨u.hot, id⟩ := by
      rintro ⟨h, a⟩ rfl
      rfl
    rw [hst _ h2]
    obtain ⟨i1, i2, i3⟩ := ih (UiLibrary.Button ⟨hot, id⟩ d id text bounds).2.1.hot e
      (fun x hx => hds x (List.mem_cons_of_mem d hx))
    refine ⟨?_, i2, i3⟩
    rw [h1, i1]
    rfl

/-- A press frame that does not commit, then quiet frames inside the bounds,
then a release without press inside the bounds: one true result, on the last
frame. -/
theorem runButton_press_hover_release (B : Int) (text : String) (bounds : Rectangle)
    (ui : UiLibrary) (press : Input) (mid : List Input) (rel : Input)
    (hhot : ui.hot = B)
    (hpress : press.IsMouseButtonPressed = true)
    (hfirst : press.IsMouseButtonReleased = false ∨ ui.active ≠ B)
    (hin : CheckCollisionPointRec press.GetMousePosition bounds = true)
    (hmid : ∀ m ∈ mid, m.IsMouseButtonPressed = false ∧ m.IsMouseButtonReleased = false ∧
      CheckCollisionPointRec m.GetMousePosition bounds = true)
    (hrel : rel.IsMouseButtonReleased = true) (hrelp : rel.IsMouseButtonPressed = false)
    (hrelin : CheckCollisionPointRec rel.GetMousePosition bounds = true) :
    runButton B text bounds ui (press :: (mid ++ [rel])) =
      (List.replicate (mid.length + 1) false ++ [true], ⟨B, -1⟩) := by
  have h1 : (ui.Button press B text bounds).1 = false := by
    rw [Button_fst, decide_eq_false_iff_not]
    rintro ⟨ha, hr, -⟩
    rcases hfirst with h | h
    · rw [h] at hr
      exact Bool.false_ne_true hr
    · exact h ha.symm
  have h2 : (ui.Button press B text bounds).2.1 = ⟨B, B⟩ := by
    rw [Button_state]
    simp [hhot, hpress, hin]
  have h3 : (UiLibrary.Button ⟨B, B⟩ rel B text bounds).1 = true := by
    rw [Button_fst]
    simp [hrel]
  have h4 : (UiLibrary.Button ⟨B, B⟩ rel B text bounds).2.1 = ⟨B, -1⟩ := by
    rw [Button_state]
    simp [hrel, hrelp, hrelin]
  rw [runButton_cons, h1, h2, runButton_append, runButton_hold B text bounds mid hmid,
    runButton_cons, runButton_nil, h3, h4]
  simp [List.replicate_succ]

/-- C9. For a button `B` evaluated alone each frame, starting from any state
with `hot = B`: a frame whose input signals the press with the pointer inside
the bounds, then any number of quiet frames with the pointer inside the
bounds, then a frame with release and no press and the pointer inside the
bounds, returns false on every frame but the last and true on the last, and
leaves `active = -1`. -/
theorem press_hover_release_commits (B : Int) (text : String) (bounds : Rectangle)
    (ui : UiLibrary) (button : MouseButtonState) (position : Vector2) (mid : List Input)
    (rel : Input) (hhot : ui.hot = B)
    (hpress : (button.input position).IsMouseButtonPressed = true)
    (hin : CheckCollisionPointRec position bounds = true)
    (hmid : ∀ m ∈ mid, m.IsMouseButtonPressed = false ∧ m.IsMouseButtonReleased = false ∧
      CheckCollisionPointRec m.GetMousePosition bounds = true)
    (hrel : rel.IsMouseButtonReleased = true) (hrelp : rel.IsMouseButtonPressed = false)
    (hrelin : CheckCollisionPointRec rel.GetMousePosition bounds = true) :
    runButton B text bounds ui (button.input position :: (mid ++ [rel])) =
      (List.replicate (mid.length + 1) false ++ [true], ⟨B, -1⟩) :=
  runButton_press_hover_release B text bounds ui (button.input position) mid rel hhot hpress
    (Or.inl (input_pressed_not_released button position hpress)) hin hmid hrel hrelp hrelin

/-- Witness for C9: button 1 at `{0, 0, 10, 10}`, from registry `(1, 1)`, the
button sampled up and then down at `(5, 5)`, one quiet frame at `(6, 6)`,
release at `(7, 7)`. -/
theorem press_hover_release_commits_witness :
    runButton 1 "b" ⟨0, 0, 10, 10⟩ ⟨1, 1⟩
      [MouseButtonState.input ⟨false, true⟩ ⟨5, 5⟩, ⟨false, false, ⟨6, 6⟩⟩,
        ⟨false, true, ⟨7, 7⟩⟩] =
      ([false, false, true], ⟨1, -1⟩) :=
  press_hover_release_commits 1 "b" ⟨0, 0, 10, 10⟩ ⟨1, 1⟩ ⟨false, true⟩ ⟨5, 5⟩
    [⟨false, false, ⟨6, 6⟩⟩] ⟨false, true, ⟨7, 7⟩⟩ rfl rfl (by decide)
    (by decide) rfl rfl (by decide)

/-- C10. For a button `A` other than `-1` evaluated alone each frame, starting
from `active = A` and `hot = A`: after one or more quiet frames with the
pointer outside the bounds, a frame that signals the release returns false and
leaves `active = -1`, wherever the pointer is in that frame; all earlier frames
return false as well. -/
theorem drag_away_cancels (A : Int) (hA : A ≠ -1) (text : String) (bounds : Rectangle)
    (d : Input) (ds : List Input) (rel : Input)
    (hds : ∀ m ∈ d :: ds, m.IsMouseButtonPressed = false ∧ m.IsMouseButtonReleased = false ∧
      CheckCollisionPointRec m.GetMousePosition bounds = false)
    (hrel : rel.IsMouseButtonReleased = true) :
    (runButton A text bounds ⟨A, A⟩ ((d :: ds) ++ [rel])).1 =
      List.replicate (ds.length + 1) false ++ [false] ∧
    (runButton A text bounds ⟨A, A⟩ ((d :: ds) ++ [rel])).2.active = -1 := by
  obtain ⟨h1, h2, h3⟩ := runButton_drag A hA text bounds A d ds hds
  have hfst : ∀ u : UiLibrary, u.active = A → u.hot ≠ A →
      (u.Button rel A text bounds).1 = false ∧ (u.Button rel A text bounds).2.1.active = -1 := by
    intro u ha hh
    rw [Button_fst, Button_state]
    have hn1 : ¬ (A = u.active ∧ rel.IsMouseButtonReleased = true ∧ A = u.hot) :=
      fun h => hh h.2.2.symm
    have hn2 : ¬ (A = u.hot ∧ rel.IsMouseButtonPressed = true) := fun h => hh h.1.symm
    have hy : A = u.active ∧ rel.IsMouseButtonReleased = true := ⟨ha.symm, hrel⟩
    simp only [decide_eq_false hn1, if_neg hn2, if_pos hy, and_self]
  obtain ⟨g1, g2⟩ := hfst _ h2 h3
  rw [runButton_append, runButton_cons _ _ _ _ rel [], runButton_nil, h1, g1]
  exact ⟨rfl, g2⟩

/-- Witness for C10: button 1 at `{0, 0, 10, 10}`, two quiet frames outside,
then a release back inside the bounds. -/
theorem drag_away_cancels_witness :
    (runButton 1 "b" ⟨0, 0, 10, 10⟩ ⟨1, 1⟩
      [⟨false, false, ⟨20, 5⟩⟩, ⟨false, false, ⟨30, 5⟩⟩, ⟨false, true, ⟨5, 5⟩⟩]).1 =
      [false, false, false] ∧
    (runButton 1 "b" ⟨0, 0, 10, 10⟩ ⟨1, 1⟩
      [⟨false, false, ⟨20, 5⟩⟩, ⟨false, false, ⟨30, 5⟩⟩, ⟨false, true, ⟨5, 5⟩⟩]).2.active =
      -1 :=
  drag_away_cancels 1 (by decide) "b" ⟨0, 0, 10, 10⟩ ⟨false, false, ⟨20, 5⟩⟩
    [⟨false, false, ⟨30, 5⟩⟩] ⟨false, true, ⟨5, 5⟩⟩ (by decide) rfl

/-! ## Immediate mode: `Checkbox` against `Button` -/

/-- C11. For every registry state, id, bounds, frame input and `isChecked`,
`Checkbox` leaves `(hot, active)` exactly as `Button` leaves them for the same
id, bounds and input; it returns the negation of `isChecked` exactly when
`Button` returns true and `isChecked` unchanged otherwise. -/
theorem checkbox_agrees_with_button (ui : UiLibrary) (inp : Input) (id : Int)
    (text textOn textOff : String) (isChecked : Bool) (bounds : Rectangle) :
    (ui.Checkbox inp id isChecked textOn textOff bounds).2.1 =
      (ui.Button inp id text bounds).2.1 ∧
    (ui.Checkbox inp id isChecked textOn textOff bounds).1 =
      (if (ui.Button inp id text bounds).1 = true then !isChecked else isChecked) ∧
    ((ui.Checkbox inp id isChecked textOn textOff bounds).1 = (!isChecked) ↔
      (ui.Button inp id text bounds).1 = true) := by
  rw [Checkbox_state, Button_state, Checkbox_fst, Button_fst]
  refine ⟨rfl, ?_, ?_⟩
  · by_cases h : id = ui.active ∧ inp.IsMouseButtonReleased = true ∧ id = ui.hot
    · rw [if_pos h, decide_eq_true h, if_pos rfl]
    · rw [if_neg h, decide_eq_false h, if_neg Bool.false_ne_true]
  · by_cases h : id = ui.active ∧ inp.IsMouseButtonReleased = true ∧ id = ui.hot
    · rw [if_pos h, decide_eq_true h]
      simp
    · rw [if_neg h, decide_eq_false h]
      cases isChecked <;> simp

/-! ## Immediate mode: frames of several widgets -/

theorem evalFrame_nil (inp : Input) (ui : UiLibrary) : evalFrame inp ui [] = ([], ui) := rfl

theorem evalFrame_cons (inp : Input) (ui : UiLibrary) (w : Widget) (rest : List Widget) :
    evalFrame inp ui (w :: rest) =
      ((w.eval ui inp).1 :: (evalFrame inp (w.eval ui inp).2.1 rest).1,
        (evalFrame inp (w.eval ui inp).2.1 rest).2) := rfl

theorem evalFrame_append (inp : Input) (ui : UiLibrary) (xs ys : List Widget) :
    evalFrame inp ui (xs ++ ys) =
      ((evalFrame inp ui xs).1 ++ (evalFrame inp (evalFrame inp ui xs).2 ys).1,
        (evalFrame inp (evalFrame inp ui xs).2 ys).2) := by
  induction xs generalizing ui with
  | nil => simp [evalFrame_nil]
  | cons x xs ih => simp [evalFrame_cons, ih]

/-- The registry after the call of a widget that has an id. -/
theorem eval_state_some (ui : UiLibrary) (inp : Input) (w : Widget) (id : Int)
    (hid : w.id? = some id) :
    (w.eval ui inp).2.1 =
      { hot := if CheckCollisionPointRec inp.GetMousePosition w.bounds = true then id
               else if ui.hot = id then -1 else ui.hot,
        active := if id = ui.hot ∧ inp.IsMouseButtonPressed = true then id
               else if id = ui.active ∧ inp.IsMouseButtonReleased = true then -1
               else ui.active } := by
  cases w with
  | Button i text bounds =>
    obtain rfl : i = id := by simpa [Widget.id?] using hid
    exact Button_state ui inp i text bounds
  | Checkbox i isChecked textOn textOff bounds =>
    obtain rfl : i = id := by simpa [Widget.id?] using hid
    exact Checkbox_state ui inp i isChecked textOn textOff bounds
  | Label text bounds => simp [Widget.id?] at hid

/-- A `Label` call leaves the registry as it is. -/
theorem eval_state_none (ui : UiLibrary) (inp : Input) (w : Widget) (hid : w.id? = none) :
    (w.eval ui inp).2.1 = ui := by
  cases w with
  | Button i text bounds => simp [Widget.id?] at hid
  | Checkbox i isChecked textOn textOff bounds => simp [Widget.id?] at hid
  | Label text bounds => rfl

/-- The `hot` a frame ends with depends on the `hot` it starts with only. -/
theorem evalFrame_hot_congr (inp : Input) (ws : List Widget) (ui ui2 : UiLibrary)
    (h : ui.hot = ui2.hot) :
    (evalFrame inp ui ws).2.hot = (evalFrame inp ui2 ws).2.hot := by
  induction ws generalizing ui ui2 with
  | nil => exact h
  | cons w ws ih =>
    rw [evalFrame_cons, evalFrame_cons]
    apply ih
    cases hid : w.id? with
    | none => rw [eval_state_none ui inp w hid, eval_state_none ui2 inp w hid, h]
    | some id => rw [eval_state_some ui inp w id hid, eval_state_some ui2 inp w id hid, h]

/-- When the pointer is inside the bounds of some widget with an id, the `hot`
a frame ends with does not depend on the registry it starts with. -/
theorem evalFrame_hot_of_hit (inp : Input) (ws : List Widget) (ui ui2 : UiLibrary)
    (hex : ∃ w ∈ ws, ∃ id, w.id? = some id ∧
      CheckCollisionPointRec inp.GetMousePosition w.bounds = true) :
    (evalFrame inp ui ws).2.hot = (evalFrame inp ui2 ws).2.hot := by
  induction ws generalizing ui ui2 with
  | nil =>
    obtain ⟨w, hw, -⟩ := hex
    exact absurd hw (List.not_mem_nil w)
  | cons w ws ih =>
    rw [evalFrame_cons, evalFrame_cons]
    by_cases hw : ∃ id, w.id? = some id ∧
        CheckCollisionPointRec inp.GetMousePosition w.bounds = true
    · obtain ⟨id, hid, hin⟩ := hw
      apply evalFrame_hot_congr
      rw [eval_state_some ui inp w id hid, eval_state_some ui2 inp w id hid]
      simp only [if_pos hin]
    · apply ih
      obtain ⟨v, hv, hvhit⟩ := hex
      rcases List.mem_cons.mp hv with rfl | hv
      · exact absurd hvhit hw
      · exact ⟨v, hv, hvhit⟩

/-- When the pointer is outside the bounds of every widget with an id, a frame
clears `hot` if it is the id of one of the widgets and keeps it otherwise. -/
theorem evalFrame_hot_of_no_hit (inp : Input) (ws : List Widget) (ui : UiLibrary)
    (hno : ∀ w ∈ ws, ∀ id, w.id? = some id →
      CheckCollisionPointRec inp.GetMousePosition w.bounds = false) :
    (evalFrame inp ui ws).2.hot =
      if ui.hot ∈ ws.filterMap Widget.id? then -1 else ui.hot := by
  induction ws generalizing ui with
  | nil => simp [evalFrame_nil]
  | cons w ws ih =>
    rw [evalFrame_cons, ih _ (fun v hv => hno v (List.mem_cons_of_mem w hv))]
    cases hid : w.id? with
    | none =>
      rw [eval_state_none ui inp w hid, List.filterMap_cons_none hid]
    | some id =>
      have hout := hno w (List.mem_cons_self w ws) id hid
      have hn : ¬ (CheckCollisionPointRec inp.GetMousePosition w.bounds = true) := by
        rw [hout]
        exact Bool.false_ne_true
      rw [eval_state_some ui inp w id hid, List.filterMap_cons_some hid]
      simp only [if_neg hn]
      by_cases hh : ui.hot = id
      · simp [hh]
      · simp [hh]

/-- In a frame with no press and no release every widget call leaves `active`
as it is, a `Button` returns false and a `Checkbox` returns its input. -/
theorem evalFrame_quiet (inp : Input) (ws : List Widget) (ui : UiLibrary)
    (hp : inp.IsMouseButtonPressed = false) (hr : inp.IsMouseButtonReleased = false) :
    (evalFrame inp ui ws).2.active = ui.active ∧
    (evalFrame inp ui ws).1 = ws.map (fun w =>
      match w with
      | .Button _ _ _ => some false
      | .Checkbox _ isChecked _ _ _ => some isChecked
      | .Label _ _ => none) := by
  induction ws generalizing ui with
  | nil => exact ⟨rfl, rfl⟩
  | cons w ws ih =>
    rw [evalFrame_cons]
    obtain ⟨ih1, ih2⟩ := ih (w.eval ui inp).2.1
    have hact : (w.eval ui inp).2.1.active = ui.active := by
      cases hid : w.id? with
      | none => rw [eval_state_none ui inp w hid]
      | some id =>
        rw [eval_state_some ui inp w id hid]
        simp [hp, hr]
    refine ⟨by rw [ih1, hact], ?_⟩
    rw [ih2, List.map_cons]
    cases w with
    | Button i text bounds =>
      simp only [Widget.eval, Button_fst, hr]
      simp
    | Checkbox i isChecked textOn textOff bounds =>
      simp only [Widget.eval, Checkbox_fst, hr]
      simp
    | Label text bounds => rfl

/-- When the last widget of a frame whose bounds contain the pointer is `w`,
and no widget evaluated after it has the same id, the frame ends with `hot`
equal to the id of `w`. -/
theorem evalFrame_hot_last_hit (inp : Input) (ui : UiLibrary) (before : List Widget)
    (w : Widget) (after : List Widget) (id : Int) (hid : w.id? = some id)
    (hin : CheckCollisionPointRec inp.GetMousePosition w.bounds = true)
    (hafter : ∀ v ∈ after, ∀ j, v.id? = some j →
      CheckCollisionPointRec inp.GetMousePosition v.bounds = false)
    (hfresh : id ∉ after.filterMap Widget.id?) :
    (evalFrame inp ui (before ++ w :: after)).2.hot = id := by
  rw [evalFrame_append, evalFrame_cons, evalFrame_hot_of_no_hit inp after _ hafter,
    eval_state_some _ inp w id hid]
  simp only [if_pos hin, if_neg hfresh]

/-- When the pointer is inside the bounds of some widget with an id, there is
a last such widget in evaluation order, and with pairwise distinct ids the
frame ends with `hot` equal to its id. -/
theorem evalFrame_hot_exists_last_hit (inp : Input) (ui : UiLibrary) (ws : List Widget)
    (hnodup : (ws.filterMap Widget.id?).Nodup)
    (hex : ∃ w ∈ ws, ∃ id, w.id? = some id ∧
      CheckCollisionPointRec inp.GetMousePosition w.bounds = true) :
    ∃ (before : List Widget) (w : Widget) (after : List Widget) (id : Int),
      ws = before ++ w :: after ∧ w.id? = some id ∧
      CheckCollisionPointRec inp.GetMousePosition w.bounds = true ∧
      (∀ v ∈ after, ∀ j, v.id? = some j →
        CheckCollisionPointRec inp.GetMousePosition v.bounds = false) ∧
      (evalFrame inp ui ws).2.hot = id := by
  induction ws generalizing ui with
  | nil =>
    obtain ⟨w, hw, -⟩ := hex
    exact absurd hw (List.not_mem_nil w)
  | cons x xs ih =>
    by_cases hxs : ∃ w ∈ xs, ∃ id, w.id? = some id ∧
        CheckCollisionPointRec inp.GetMousePosition w.bounds = true
    · have hnd : (xs.filterMap Widget.id?).Nodup := by
        cases hx : x.id? with
        | none => rwa [List.filterMap_cons_none hx] at hnodup
        | some j =>
          rw [List.filterMap_cons_some hx] at hnodup
          exact (List.nodup_cons.mp hnodup).2
      obtain ⟨before, w, after, id, hsplit, hid, hin, hafter, hhot⟩ :=
        ih (x.eval ui inp).2.1 hnd hxs
      refine ⟨x :: before, w, after, id, ?_, hid, hin, hafter, ?_⟩
      · rw [hsplit, List.cons_append]
      · rw [evalFrame_cons]
        exact hhot
    · obtain ⟨v, hv, id, hid, hin⟩ := hex
      rcases List.mem_cons.mp hv with rfl | hv
      · have hafter : ∀ u ∈ xs, ∀ j, u.id? = some j →
            CheckCollisionPointRec inp.GetMousePosition u.bounds = false := by
          intro u hu j hj
          cases hc : CheckCollisionPointRec inp.GetMousePosition u.bounds with
          | false => rfl
          | true => exact absurd ⟨u, hu, j, hj, hc⟩ hxs
        have hfresh : id ∉ xs.filterMap Widget.id? := by
          rw [List.filterMap_cons_some hid] at hnodup
          exact (List.nodup_cons.mp hnodup).1
        refine ⟨[], v, xs, id, rfl, hid, hin, hafter, ?_⟩
        exact evalFrame_hot_last_hit inp ui [] v xs id hid hin hafter hfresh
      · exact absurd ⟨v, hv, id, hid, hin⟩ hxs

/-- C14. For widgets with pairwise distinct ids evaluated in order within one
frame, from every registry state: when the pointer lies inside the bounds of
at least one of them, the frame ends with `hot` equal to the id of the last
widget in evaluation order whose bounds contain the pointer. The last such
widget is `w` in `ws = before ++ w :: after` with the pointer outside the
bounds of every widget of `after`; it exists whenever some widget is hit. -/
theorem overlap_tie_break (inp : Input) (ui : UiLibrary) (ws : List Widget)
    (hnodup : (ws.filterMap Widget.id?).Nodup) :
    (∀ (before : List Widget) (w : Widget) (after : List Widget) (id : Int),
      ws = before ++ w :: after → w.id? = some id →
      CheckCollisionPointRec inp.GetMousePosition w.bounds = true →
      (∀ v ∈ after, ∀ j, v.id? = some j →
        CheckCollisionPointRec inp.GetMousePosition v.bounds = false) →
      (evalFrame inp ui ws).2.hot = id) ∧
    ((∃ w ∈ ws, ∃ id, w.id? = some id ∧
        CheckCollisionPointRec inp.GetMousePosition w.bounds = true) →
      ∃ (before : List Widget) (w : Widget) (after : List Widget) (id : Int),
        ws = before ++ w :: after ∧ w.id? = some id ∧
        CheckCollisionPointRec inp.GetMousePosition w.bounds = true ∧
        (∀ v ∈ after, ∀ j, v.id? = some j →
          CheckCollisionPointRec inp.GetMousePosition v.bounds = false) ∧
        (evalFrame inp ui ws).2.hot = id) := by
  constructor
  · rintro before w after id rfl hid hin hafter
    have hfresh : id ∉ after.filterMap Widget.id? := by
      rw [List.filterMap_append, List.filterMap_cons_some hid] at hnodup
      exact (List.nodup_cons.mp (List.Nodup.of_append_right hnodup)).1
    exact evalFrame_hot_last_hit inp ui before w after id hid hin hafter hfresh
  · exact evalFrame_hot_exists_last_hit inp ui ws hnodup

/-- Witness for C14: buttons 1 and 2, both at `{0, 0, 10, 10}`, and button 3
elsewhere, evaluated in this order with the pointer at `(5, 5)`: button 2 ends
up hot. -/
theorem overlap_tie_break_witness :
    (evalFrame ⟨false, false, ⟨5, 5⟩⟩ ⟨-1, -1⟩
      [Widget.Button 1 "a" ⟨0, 0, 10, 10⟩, Widget.Button 2 "b" ⟨0, 0, 10, 10⟩,
        Widget.Button 3 "c" ⟨20, 0, 10, 10⟩]).2.hot = 2 :=
  (overlap_tie_break ⟨false, false, ⟨5, 5⟩⟩ ⟨-1, -1⟩
    [Widget.Button 1 "a" ⟨0, 0, 10, 10⟩, Widget.Button 2 "b" ⟨0, 0, 10, 10⟩,
      Widget.Button 3 "c" ⟨20, 0, 10, 10⟩] (by decide)).1
    [Widget.Button 1 "a" ⟨0, 0, 10, 10⟩] (Widget.Button 2 "b" ⟨0, 0, 10, 10⟩)
    [Widget.Button 3 "c" ⟨20, 0, 10, 10⟩] 2 rfl rfl (by decide) (by decide)

/-- C15. For every list of widget calls, pointer position and starting
registry: a frame with no press and no release, evaluated and then evaluated
again with the same input, leaves the registry after the second frame equal to
the registry after the first, `active` equal to its starting value, and in both
frames every `Button` returns false and every `Checkbox` returns its input. -/
theorem quiet_frame_idempotent (inp : Input) (ui : UiLibrary) (ws : List Widget)
    (hp : inp.IsMouseButtonPressed = false) (hr : inp.IsMouseButtonReleased = false) :
    (evalFrame inp (evalFrame inp ui ws).2 ws).2 = (evalFrame inp ui ws).2 ∧
    (evalFrame inp ui ws).2.active = ui.active ∧
    (evalFrame inp ui ws).1 = ws.map (fun w =>
      match w with
      | .Button _ _ _ => some false
      | .Checkbox _ isChecked _ _ _ => some isChecked
      | .Label _ _ => none) ∧
    (evalFrame inp (evalFrame inp ui ws).2 ws).1 = ws.map (fun w =>
      match w with
      | .Button _ _ _ => some false
      | .Checkbox _ isChecked _ _ _ => some isChecked
      | .Label _ _ => none) := by
  obtain ⟨ha1, hres1⟩ := evalFrame_quiet inp ws ui hp hr
  obtain ⟨ha2, hres2⟩ := evalFrame_quiet inp ws (evalFrame inp ui ws).2 hp hr
  refine ⟨?_, ha1, hres1, hres2⟩
  have hhot : (evalFrame inp (evalFrame inp ui ws).2 ws).2.hot = (evalFrame inp ui ws).2.hot := by
    by_cases hex : ∃ w ∈ ws, ∃ id, w.id? = some id ∧
        CheckCollisionPointRec inp.GetMousePosition w.bounds = true
    · exact evalFrame_hot_of_hit inp ws _ _ hex
    · have hno : ∀ w ∈ ws, ∀ id, w.id? = some id →
          CheckCollisionPointRec inp.GetMousePosition w.bounds = false := by
        intro w hw id hid
        cases hc : CheckCollisionPointRec inp.GetMousePosition w.bounds with
        | false => rfl
        | true => exact absurd ⟨w, hw, id, hid, hc⟩ hex
      rw [evalFrame_hot_of_no_hit inp ws _ hno, evalFrame_hot_of_no_hit inp ws ui hno]
      by_cases hm : ui.hot ∈ ws.filterMap Widget.id?
      · simp [hm]
      · simp [hm]
  have hext : ∀ u v : UiLibrary, u.hot = v.hot → u.active = v.active → u = v := by
    rintro ⟨h1, a1⟩ ⟨h2, a2⟩ rfl rfl
    rfl
  exact hext _ _ hhot ha2

/-- Witness for C15: a checkbox and a button evaluated twice with the pointer
resting on the button. -/
theorem quiet_frame_idempotent_witness :
    (evalFrame ⟨false, false, ⟨5, 5⟩⟩
        (evalFrame ⟨false, false, ⟨5, 5⟩⟩ ⟨7, 7⟩
          [Widget.Checkbox 7 true "on" "off" ⟨20, 0, 10, 10⟩,
            Widget.Button 1 "a" ⟨0, 0, 10, 10⟩]).2
        [Widget.Checkbox 7 true "on" "off" ⟨20, 0, 10, 10⟩,
          Widget.Button 1 "a" ⟨0, 0, 10, 10⟩]).2 =
      (evalFrame ⟨false, false, ⟨5, 5⟩⟩ ⟨7, 7⟩
        [Widget.Checkbox 7 true "on" "off" ⟨20, 0, 10, 10⟩,
          Widget.Button 1 "a" ⟨0, 0, 10, 10⟩]).2 :=
  (quiet_frame_idempotent ⟨false, false, ⟨5, 5⟩⟩ ⟨7, 7⟩
    [Widget.Checkbox 7 true "on" "off" ⟨20, 0, 10, 10⟩, Widget.Button 1 "a" ⟨0, 0, 10, 10⟩]
    rfl rfl).1

/-- C19. Two widgets `A` and `B` with distinct ids evaluated in the order `A`
then `B` every frame: if the pointer lay inside the bounds of `B` during the
preceding frame and lies inside the bounds of `A` in the current frame (so in
particular when it lies inside both bounds in both frames), and the current
frame signals the press without a release, then `active` after the current
frame equals `active` before it, whatever the ids are. The preceding frame
leaves `hot` at `B`, the call of `A` moves it to `A`, so neither call sees its
own id in `hot`. -/
theorem overlap_press_blocked (A B : Widget) (a b : Int) (hA : A.id? = some a)
    (hB : B.id? = some b) (hab : a ≠ b) (ui : UiLibrary) (prev cur : Input)
    (hprevB : CheckCollisionPointRec prev.GetMousePosition B.bounds = true)
    (hcurA : CheckCollisionPointRec cur.GetMousePosition A.bounds = true)
    (_hp : cur.IsMouseButtonPressed = true) (hr : cur.IsMouseButtonReleased = false) :
    (evalFrame cur (evalFrame prev ui [A, B]).2 [A, B]).2.active =
      (evalFrame prev ui [A, B]).2.active := by
  have hprev : (evalFrame prev ui [A, B]).2.hot = b := by
    rw [evalFrame_cons, evalFrame_cons, evalFrame_nil, eval_state_some _ prev B b hB]
    simp only [if_pos hprevB]
  generalize (evalFrame prev ui [A, B]).2 = u at hprev ⊢
  rw [evalFrame_cons, evalFrame_cons, evalFrame_nil, eval_state_some _ cur B b hB,
    eval_state_some u cur A a hA]
  have h1 : ¬ (a = u.hot ∧ cur.IsMouseButtonPressed = true) := by
    rw [hprev]
    exact fun h => hab h.1
  have h2 : ¬ (a = u.active ∧ cur.IsMouseButtonReleased = true) := by
    rw [hr]
    exact fun h => Bool.false_ne_true h.2
  have h3 : ¬ (b = a ∧ cur.IsMouseButtonPressed = true) := fun h => hab h.1.symm
  have h4 : ¬ (b = u.active ∧ cur.IsMouseButtonReleased = true) := by
    rw [hr]
    exact fun h => Bool.false_ne_true h.2
  simp only [if_pos hcurA, if_neg h1, if_neg h2, if_neg h3, if_neg h4]

/-- Witness for C19: button 1 and checkbox 2, both at `{0, 0, 10, 10}`, a quiet
frame and then a press frame with the pointer at `(5, 5)`: `active` stays
`-1`. -/
theorem overlap_press_blocked_witness :
    (evalFrame ⟨true, false, ⟨5, 5⟩⟩
      (evalFrame ⟨false, false, ⟨5, 5⟩⟩ ⟨-1, -1⟩
        [Widget.Button 1 "a" ⟨0, 0, 10, 10⟩,
          Widget.Checkbox 2 false "on" "off" ⟨0, 0, 10, 10⟩]).2
      [Widget.Button 1 "a" ⟨0, 0, 10, 10⟩,
        Widget.Checkbox 2 false "on" "off" ⟨0, 0, 10, 10⟩]).2.active =
      (evalFrame ⟨false, false, ⟨5, 5⟩⟩ ⟨-1, -1⟩
        [Widget.Button 1 "a" ⟨0, 0, 10, 10⟩,
          Widget.Checkbox 2 false "on" "off" ⟨0, 0, 10, 10⟩]).2.active :=
  overlap_press_blocked (Widget.Button 1 "a" ⟨0, 0, 10, 10⟩)
    (Widget.Checkbox 2 false "on" "off" ⟨0, 0, 10, 10⟩) 1 2 rfl rfl (by decide) ⟨-1, -1⟩
    ⟨false, false, ⟨5, 5⟩⟩ ⟨true, false, ⟨5, 5⟩⟩ (by decide) (by decide) rfl rfl

/-! ## Immediate mode: the frame body of `main` -/

theorem resizes_append (xs ys : List Cmd) : resizes (xs ++ ys) = resizes xs ++ resizes ys := by
  simp [resizes]

/-- A `Button` call makes no `SetWindowSize` call. -/
theorem Button_resizes (ui : UiLibrary) (inp : Input) (id : Int) (text : String)
    (bounds : Rectangle) : resizes (ui.Button inp id text bounds).2.2 = [] := by
  obtain ⟨hot, active⟩ := ui
  obtain ⟨pressed, released, mouse⟩ := inp
  unfold UiLibrary.Button
  dsimp only [Id.run, pure, bind]
  rcases eq_or_ne id active with rfl | h1 <;> rcases eq_or_ne id hot with rfl | h2 <;>
    rcases eq_or_ne id (-1) with rfl | h3 <;>
    (try have h2s := h2.symm) <;>
    cases released <;> cases pressed <;> cases hc : CheckCollisionPointRec mouse bounds <;>
    simp [*, resizes]

/-- A `Checkbox` call makes no `SetWindowSize` call. -/
theorem Checkbox_resizes (ui : UiLibrary) (inp : Input) (id : Int) (isChecked : Bool)
    (textOn textOff : String) (bounds : Rectangle) :
    resizes (ui.Checkbox inp id isChecked textOn textOff bounds).2.2 = [] := by
  obtain ⟨hot, active⟩ := ui
  obtain ⟨pressed, released, mouse⟩ := inp
  unfold UiLibrary.Checkbox
  dsimp only [Id.run, pure, bind]
  rcases eq_or_ne id active with rfl | h1 <;> rcases eq_or_ne id hot with rfl | h2 <;>
    rcases eq_or_ne id (-1) with rfl | h3 <;>
    (try have h2s := h2.symm) <;>
    cases released <;> cases pressed <;> cases hc : CheckCollisionPointRec mouse bounds <;>
    simp [*, resizes]

/-- The `SetWindowSize` calls of one iteration of `main`, and the registry and
`canResize` it leaves, in terms of the four evaluator calls. -/
theorem mainFrame_resizes (ui : UiLibrary) (canResize : Bool) (inp : Input) :
    resizes (mainFrame ui canResize inp).2.2 =
      (if ((ui.Checkbox inp 10 canResize "Resolution resizable." "Resolution locked."
            ⟨10, 60, 80, 40⟩).2.1.Button inp 0 "800x600" ⟨10, 10, 80, 40⟩).1 &&
          (mainFrame ui canResize inp).2.1 then [Cmd.SetWindowSize 800 600] else []) ++
      (if ((((ui.Checkbox inp 10 canResize "Resolution resizable." "Resolution locked."
            ⟨10, 60, 80, 40⟩).2.1.Button inp 0 "800x600" ⟨10, 10, 80, 40⟩).2.1.Button inp 1
            "1000x600" ⟨100, 10, 80, 40⟩).1) &&
          (mainFrame ui canResize inp).2.1 then [Cmd.SetWindowSize 1000 600] else []) ++
      (if (((((ui.Checkbox inp 10 canResize "Resolution resizable." "Resolution locked."
            ⟨10, 60, 80, 40⟩).2.1.Button inp 0 "800x600" ⟨10, 10, 80, 40⟩).2.1.Button inp 1
            "1000x600" ⟨100, 10, 80, 40⟩).2.1.Button inp 2 "1200x600" ⟨190, 10, 80, 40⟩).1) &&
          (mainFrame ui canResize inp).2.1 then [Cmd.SetWindowSize 1200 600] else []) := by
  simp only [mainFrame, resizes_append, Button_resizes, Checkbox_resizes]
  simp only [resizes]
  split_ifs <;> simp

/-- A point inside the second button's rect lies outside the rects of the
checkbox and of the other two buttons. -/
theorem second_rect_disjoint (p : Vector2)
    (hin : CheckCollisionPointRec p ⟨100, 10, 80, 40⟩ = true) :
    CheckCollisionPointRec p ⟨10, 60, 80, 40⟩ = false ∧
    CheckCollisionPointRec p ⟨10, 10, 80, 40⟩ = false ∧
    CheckCollisionPointRec p ⟨190, 10, 80, 40⟩ = false := by
  simp only [CheckCollisionPointRec, Bool.and_eq_true, decide_eq_true_eq] at hin
  obtain ⟨⟨⟨h1, h2⟩, h3⟩, h4⟩ := hin
  refine ⟨?_, ?_, ?_⟩ <;>
    simp only [CheckCollisionPointRec, Bool.and_eq_false_iff, decide_eq_false_iff_not] <;>
    omega

/-- The press frame of the scenario, entered with the second button hot and
nothing active: no `SetWindowSize` call, `canResize` stays true, and the
second button is hot and active afterwards. -/
theorem mainFrame_press_second (released : Bool) (p : Vector2)
    (hin : CheckCollisionPointRec p ⟨100, 10, 80, 40⟩ = true) :
    (mainFrame ⟨1, -1⟩ true ⟨true, released, p⟩).1 = ⟨1, 1⟩ ∧
    (mainFrame ⟨1, -1⟩ true ⟨true, released, p⟩).2.1 = true ∧
    resizes (mainFrame ⟨1, -1⟩ true ⟨true, released, p⟩).2.2 = [] := by
  obtain ⟨hc, h0, h2⟩ := second_rect_disjoint p hin
  rw [mainFrame_resizes]
  simp [mainFrame, Button_fst, Button_state, Checkbox_fst, Checkbox_state, hin, hc, h0, h2]

/-- The release frame of the scenario, entered with the second button hot and
active: exactly the second button's `SetWindowSize(1000, 600)`. -/
theorem mainFrame_release_second (pressed : Bool) (p : Vector2)
    (hin : CheckCollisionPointRec p ⟨100, 10, 80, 40⟩ = true) :
    resizes (mainFrame ⟨1, 1⟩ true ⟨pressed, true, p⟩).2.2 = [Cmd.SetWindowSize 1000 600] := by
  obtain ⟨hc, h0, h2⟩ := second_rect_disjoint p hin
  rw [mainFrame_resizes]
  cases pressed <;>
    simp [mainFrame, Button_fst, Button_state, Checkbox_fst, Checkbox_state, hin, hc, h0, h2]

/-- C17, as stated, fails: a press can start only on a widget that is already
hot, and `hot` is set by the bounds test at the end of the previous call for
that widget. From the fresh registry `(-1, -1)` with `canResize` true, a press
frame and then a release frame at `(120, 20)`, inside the second button's
rect, make no `SetWindowSize` call at all. -/
theorem press_release_without_hover_fires_nothing :
    CheckCollisionPointRec ⟨120, 20⟩ ⟨100, 10, 80, 40⟩ = true ∧
    resizes ((mainFrame ⟨-1, -1⟩ true ⟨true, false, ⟨120, 20⟩⟩).2.2 ++
      (mainFrame (mainFrame ⟨-1, -1⟩ true ⟨true, false, ⟨120, 20⟩⟩).1
        (mainFrame ⟨-1, -1⟩ true ⟨true, false, ⟨120, 20⟩⟩).2.1
        ⟨false, true, ⟨120, 20⟩⟩).2.2) = [] := by
  decide

/-- C17, amended. In the frame body of `main` with `canResize` true, starting
from every registry state with `active = -1` and `hot = 1` (the second button
already hot): a frame with the press transition at a point inside the second
button's rect `{100, 10, 80, 40}` followed by a frame with the release
transition at the same point makes, over the two frames, exactly one
`SetWindowSize` call, `SetWindowSize(1000, 600)`. -/
theorem demo_second_button_fires_once (ui : UiLibrary) (hhot : ui.hot = 1)
    (hact : ui.active = -1) (p : Vector2)
    (hin : CheckCollisionPointRec p ⟨100, 10, 80, 40⟩ = true) (f1 f2 : Input)
    (hpress : f1.IsMouseButtonPressed = true) (hp1 : f1.GetMousePosition = p)
    (hrel : f2.IsMouseButtonReleased = true) (hp2 : f2.GetMousePosition = p) :
    resizes ((mainFrame ui true f1).2.2 ++
      (mainFrame (mainFrame ui true f1).1 (mainFrame ui true f1).2.1 f2).2.2) =
      [Cmd.SetWindowSize 1000 600] := by
  have eui : ui = ⟨1, -1⟩ := by
    obtain ⟨hot, active⟩ := ui
    dsimp only at hhot hact
    rw [hhot, hact]
  have e1 : f1 = ⟨true, f1.IsMouseButtonReleased, p⟩ := by
    obtain ⟨pressed, released, mouse⟩ := f1
    dsimp only at hpress hp1 ⊢
    rw [hpress, hp1]
  have e2 : f2 = ⟨f2.IsMouseButtonPressed, true, p⟩ := by
    obtain ⟨pressed, released, mouse⟩ := f2
    dsimp only at hrel hp2 ⊢
    rw [hrel, hp2]
  rw [eui, e1, e2]
  obtain ⟨h1, h2, h3⟩ := mainFrame_press_second f1.IsMouseButtonReleased p hin
  rw [resizes_append, h3, h1, h2, mainFrame_release_second f2.IsMouseButtonPressed p hin]
  rfl

/-- Witness for the amended C17: the second button hot, press and release at
`(120, 20)`. -/
theorem demo_second_button_fires_once_witness :
    resizes ((mainFrame ⟨1, -1⟩ true ⟨true, false, ⟨120, 20⟩⟩).2.2 ++
      (mainFrame (mainFrame ⟨1, -1⟩ true ⟨true, false, ⟨120, 20⟩⟩).1
        (mainFrame ⟨1, -1⟩ true ⟨true, false, ⟨120, 20⟩⟩).2.1
        ⟨false, true, ⟨120, 20⟩⟩).2.2) = [Cmd.SetWindowSize 1000 600] :=
  demo_second_button_fires_once ⟨1, -1⟩ rfl rfl ⟨120, 20⟩ (by decide)
    ⟨true, false, ⟨120, 20⟩⟩ ⟨false, true, ⟨120, 20⟩⟩ rfl rfl rfl rfl

end Immediate

/-! ## Retained mode: `HandleClick` -/

namespace Retained

theorem HandleClickChildren_nil (p : Vector2) : HandleClickChildren [] p = (false, [], []) := by
  simp [HandleClickChildren]

theorem HandleClickChildren_cons (child : UIComponent) (later : List UIComponent) (p : Vector2) :
    HandleClickChildren (child :: later) p =
      if (HandleClickChildren later p).1 = true then
        (true, child :: (HandleClickChildren later p).2.1, (HandleClickChildren later p).2.2)
      else
        ((child.HandleClick p).1, (child.HandleClick p).2.1 :: (HandleClickChildren later p).2.1,
          (HandleClickChildren later p).2.2 ++ (child.HandleClick p).2.2) := by
  simp [HandleClickChildren]

theorem HandleClick_UIContainer (bounds : Rectangle) (children : List UIComponent) (p : Vector2) :
    (UIComponent.UIContainer bounds children).HandleClick p =
      ((HandleClickChildren children p).1,
        UIComponent.UIContainer bounds (HandleClickChildren children p).2.1,
        (HandleClickChildren children p).2.2) := by
  simp [UIComponent.HandleClick]

mutual
/-- A node whose `HandleClick` returns false is left as it was and makes no
call through a function pointer. -/
theorem HandleClick_unhandled : ∀ (c : UIComponent) (p : Vector2),
    (c.HandleClick p).1 = false → c.HandleClick p = (false, c, [])
  | .UIContainer bounds children, p, h => by
    rw [HandleClick_UIContainer] at h ⊢
    rw [HandleClickChildren_unhandled children p h]
  | .Button bounds text interactable f, p, h => by
    simp only [UIComponent.HandleClick] at h ⊢
    split_ifs at h ⊢ with hc
    rfl
  | .Checkbox bounds text textOn textOff isChecked hbiw, p, h => by
    simp only [UIComponent.HandleClick] at h ⊢
    split_ifs at h ⊢ with hc
    rfl
  | .Label bounds text, p, _ => by
    simp [UIComponent.HandleClick]
/-- A child list on which the loop returns false is left as it was. -/
theorem HandleClickChildren_unhandled : ∀ (cs : List UIComponent) (p : Vector2),
    (HandleClickChildren cs p).1 = false → HandleClickChildren cs p = (false, cs, [])
  | [], p, _ => HandleClickChildren_nil p
  | c :: cs, p, h => by
    rw [HandleClickChildren_cons] at h ⊢
    split_ifs at h ⊢ with hl
    have hl2 : (HandleClickChildren cs p).1 = false := by simpa using hl
    rw [HandleClickChildren_unhandled cs p hl2, HandleClick_unhandled c p h]
    rfl
end

/-- When no child handles the click, the loop returns false and leaves the
list as it was. -/
theorem HandleClickChildren_none (cs : List UIComponent) (p : Vector2)
    (h : ∀ c ∈ cs, (c.HandleClick p).1 = false) :
    HandleClickChildren cs p = (false, cs, []) := by
  induction cs with
  | nil => exact HandleClickChildren_nil p
  | cons c cs ih =>
    rw [HandleClickChildren_cons, ih (fun x hx => h x (List.mem_cons_of_mem c hx)),
      HandleClick_unhandled c p (h c (List.mem_cons_self c cs))]
    simp

/-- The loop returns true exactly when some child handles the click. -/
theorem HandleClickChildren_handled_iff (cs : List UIComponent) (p : Vector2) :
    (HandleClickChildren cs p).1 = true ↔ ∃ c ∈ cs, (c.HandleClick p).1 = true := by
  induction cs with
  | nil => simp [HandleClickChildren_nil]
  | cons c cs ih =>
    rw [HandleClickChildren_cons]
    split_ifs with hl
    · simp only [true_iff]
      obtain ⟨x, hx, hxt⟩ := ih.mp hl
      exact ⟨x, List.mem_cons_of_mem c hx, hxt⟩
    · constructor
      · intro hc
        exact ⟨c, List.mem_cons_self c cs, hc⟩
      · rintro ⟨x, hx, hxt⟩
        rcases List.mem_cons.mp hx with rfl | hx
        · exact hxt
        · exact absurd (ih.mpr ⟨x, hx, hxt⟩) hl

/-- When the click is handled among the later children, the children added
before them are passed through untouched. -/
theorem HandleClickChildren_append_handled (xs ys : List UIComponent) (p : Vector2)
    (h : (HandleClickChildren ys p).1 = true) :
    HandleClickChildren (xs ++ ys) p =
      (true, xs ++ (HandleClickChildren ys p).2.1, (HandleClickChildren ys p).2.2) := by
  induction xs with
  | nil =>
    rw [List.nil_append, List.nil_append, ← h]
  | cons x xs ih =>
    rw [List.cons_append, HandleClickChildren_cons, ih]
    simp

/-- When none of the later children handles the click, the loop goes on with
the children added before them. -/
theorem HandleClickChildren_append_unhandled (xs ys : List UIComponent) (p : Vector2)
    (h : (HandleClickChildren ys p).1 = false) :
    HandleClickChildren (xs ++ ys) p =
      ((HandleClickChildren xs p).1, (HandleClickChildren xs p).2.1 ++ ys,
        (HandleClickChildren xs p).2.2) := by
  have hys := HandleClickChildren_unhandled ys p h
  induction xs with
  | nil => rw [List.nil_append, hys, HandleClickChildren_nil]; rfl
  | cons x xs ih =>
    rw [List.cons_append, HandleClickChildren_cons, ih, HandleClickChildren_cons]
    split_ifs with hx
    · rfl
    · rfl

/-- The recursion over the child list computes the loop of
`UIContainer::HandleClick` as it is written, counting the index down from
`children.size()`, and the loop never indexes out of range. -/
theorem HandleClickLoop_eq (p : Vector2) (cs post : List UIComponent) :
    HandleClickLoop p cs.length (cs ++ post) =
      some ((HandleClickChildren cs p).1, (HandleClickChildren cs p).2.1 ++ post,
        (HandleClickChildren cs p).2.2) := by
  induction cs using List.reverseRecOn generalizing post with
  | nil => simp [HandleClickLoop, HandleClickChildren_nil]
  | append_singleton init c ih =>
    have hget : (init ++ [c] ++ post)[init.length]? = some c := by
      rw [List.append_assoc, List.getElem?_append_right (le_refl _)]
      simp
    have hset : ∀ c2 : UIComponent, (init ++ [c] ++ post).set init.length c2 =
        init ++ (c2 :: post) := by
      intro c2
      simp [List.set_append_right]
    have hone : HandleClickChildren [c] p =
        ((c.HandleClick p).1, [(c.HandleClick p).2.1], (c.HandleClick p).2.2) := by
      simp [HandleClickChildren_cons, HandleClickChildren_nil]
    rw [List.length_append, List.length_singleton, HandleClickLoop, hget]
    simp only [hset]
    cases hc : (c.HandleClick p).1 with
    | true =>
      have hy : (HandleClickChildren [c] p).1 = true := by rw [hone]; exact hc
      rw [HandleClickChildren_append_handled init [c] p hy, hone]
      simp
    | false =>
      have hn : (HandleClickChildren [c] p).1 = false := by rw [hone]; exact hc
      rw [HandleClickChildren_append_unhandled init [c] p hn, ih,
        HandleClick_unhandled c p hc]
      simp

/-- C3. `UIContainer::HandleClick` tries the children from the last-added to
the first-added: it is the index loop counting down from `children.size()`,
which never indexes out of range. It returns true if and only if some child handles the click; the child that
handles is the last-added child whose `HandleClick` returns true, it alone is
updated and only its calls are made, and the children added before it are left
untouched whatever they are; it returns false and changes nothing when no child
handles the click, in particular for an empty container. -/
theorem container_click_last_added_first (bounds : Rectangle) (children : List UIComponent)
    (p : Vector2) :
    (HandleClickLoop p children.length children).map
        (fun r => (r.1, UIComponent.UIContainer bounds r.2.1, r.2.2)) =
      some ((UIComponent.UIContainer bounds children).HandleClick p) ∧
    (((UIComponent.UIContainer bounds children).HandleClick p).1 = true ↔
      ∃ c ∈ children, (c.HandleClick p).1 = true) ∧
    (∀ (before : List UIComponent) (child : UIComponent) (after : List UIComponent),
      children = before ++ child :: after →
      (child.HandleClick p).1 = true →
      (∀ c ∈ after, (c.HandleClick p).1 = false) →
      (UIComponent.UIContainer bounds children).HandleClick p =
        (true, UIComponent.UIContainer bounds (before ++ (child.HandleClick p).2.1 :: after),
          (child.HandleClick p).2.2)) ∧
    ((∀ c ∈ children, (c.HandleClick p).1 = false) →
      (UIComponent.UIContainer bounds children).HandleClick p =
        (false, UIComponent.UIContainer bounds children, [])) ∧
    (UIComponent.UIContainer bounds []).HandleClick p =
      (false, UIComponent.UIContainer bounds [], []) := by
  refine ⟨?_, ?_, ?_, ?_, ?_⟩
  · have h := HandleClickLoop_eq p children []
    rw [List.append_nil] at h
    rw [HandleClick_UIContainer, h, List.append_nil]
    rfl
  · rw [HandleClick_UIContainer]
    exact HandleClickChildren_handled_iff children p
  · rintro before child after rfl hchild hafter
    have htail : HandleClickChildren (child :: after) p =
        (true, (child.HandleClick p).2.1 :: after, (child.HandleClick p).2.2) := by
      rw [HandleClickChildren_cons, HandleClickChildren_none after p hafter, hchild]
      simp
    have ht : (HandleClickChildren (child :: after) p).1 = true := by rw [htail]
    rw [HandleClick_UIContainer, HandleClickChildren_append_handled before _ p ht, htail]
  · intro h
    rw [HandleClick_UIContainer, HandleClickChildren_none children p h]
  · rw [HandleClick_UIContainer, HandleClickChildren_nil]

/-- Witness for C3: a container holding an interactable button, a checkbox and
a label, all at `{0, 0, 10, 10}`, clicked at `(5, 5)`: the label, added last,
is tried and declines, the checkbox handles, the button is left alone. -/
theorem container_click_last_added_first_witness :
    (UIComponent.UIContainer ⟨0, 0, 100, 100⟩
      [UIComponent.Button ⟨0, 0, 10, 10⟩ "b" true FnPtr.sampleFunctionOnClick1,
       UIComponent.Checkbox ⟨0, 0, 10, 10⟩ "c" "on" "off" false false,
       UIComponent.Label ⟨0, 0, 10, 10⟩ "l"]).HandleClick ⟨5, 5⟩ =
      (true, UIComponent.UIContainer ⟨0, 0, 100, 100⟩
        [UIComponent.Button ⟨0, 0, 10, 10⟩ "b" true FnPtr.sampleFunctionOnClick1,
         UIComponent.Checkbox ⟨0, 0, 10, 10⟩ "c" "on" "off" true true,
         UIComponent.Label ⟨0, 0, 10, 10⟩ "l"], []) :=
  (container_click_last_added_first ⟨0, 0, 100, 100⟩
      [UIComponent.Button ⟨0, 0, 10, 10⟩ "b" true FnPtr.sampleFunctionOnClick1,
       UIComponent.Checkbox ⟨0, 0, 10, 10⟩ "c" "on" "off" false false,
       UIComponent.Label ⟨0, 0, 10, 10⟩ "l"] ⟨5, 5⟩).2.2.1
    [UIComponent.Button ⟨0, 0, 10, 10⟩ "b" true FnPtr.sampleFunctionOnClick1]
    (UIComponent.Checkbox ⟨0, 0, 10, 10⟩ "c" "on" "off" false false)
    [UIComponent.Label ⟨0, 0, 10, 10⟩ "l"] rfl (by decide) (by decide)

/-- C4, as stated, fails: a widget added later takes the click only if its own
`HandleClick` handles it. A container holding an interactable button `X` and,
added after it, a label `Y`, both at `{0, 0, 10, 10}`, clicked at `(5, 5)`
inside both: `Y` declines and the click is handled by `X`, whose callback is
invoked. -/
theorem overlap_click_falls_through_label :
    CheckCollisionPointRec ⟨5, 5⟩ ⟨0, 0, 10, 10⟩ = true ∧
    ((UIComponent.Label ⟨0, 0, 10, 10⟩ "Y").HandleClick ⟨5, 5⟩).1 = false ∧
    ((UIComponent.UIContainer ⟨0, 0, 100, 100⟩
      [UIComponent.Button ⟨0, 0, 10, 10⟩ "X" true FnPtr.sampleFunctionOnClick1,
       UIComponent.Label ⟨0, 0, 10, 10⟩ "Y"]).HandleClick ⟨5, 5⟩).1 = true ∧
    ((UIComponent.UIContainer ⟨0, 0, 100, 100⟩
      [UIComponent.Button ⟨0, 0, 10, 10⟩ "X" true FnPtr.sampleFunctionOnClick1,
       UIComponent.Label ⟨0, 0, 10, 10⟩ "Y"]).HandleClick ⟨5, 5⟩).2.2 =
      [Cmd.Call FnPtr.sampleFunctionOnClick1] := by
  decide

/-- C4, amended. For a container to which `X` was added and `Y` was added
later, and a click point at which `Y` itself handles the click (its
`HandleClick` returns true), the container's `HandleClick` returns true and
the click is resolved among `Y` and the widgets added after `Y`: `X` and every
widget added before `Y` are unchanged and no call of theirs is made; when no
widget added after `Y` handles the click, `Y` is the one that handles it. -/
theorem overlap_click_top_first (bounds : Rectangle) (before : List UIComponent)
    (X : UIComponent) (mid : List UIComponent) (Y : UIComponent) (after : List UIComponent)
    (p : Vector2) (hY : (Y.HandleClick p).1 = true) :
    (UIComponent.UIContainer bounds (before ++ X :: (mid ++ Y :: after))).HandleClick p =
      (true,
        UIComponent.UIContainer bounds
          (before ++ X :: (mid ++ (HandleClickChildren (Y :: after) p).2.1)),
        (HandleClickChildren (Y :: after) p).2.2) ∧
    ((∀ c ∈ after, (c.HandleClick p).1 = false) →
      (UIComponent.UIContainer bounds (before ++ X :: (mid ++ Y :: after))).HandleClick p =
        (true,
          UIComponent.UIContainer bounds
            (before ++ X :: (mid ++ (Y.HandleClick p).2.1 :: after)),
          (Y.HandleClick p).2.2)) := by
  have ht : (HandleClickChildren (Y :: after) p).1 = true :=
    (HandleClickChildren_handled_iff (Y :: after) p).mpr ⟨Y, List.mem_cons_self Y after, hY⟩
  have hsplit : before ++ X :: (mid ++ Y :: after) = (before ++ X :: mid) ++ (Y :: after) := by
    simp
  have hmain : (UIComponent.UIContainer bounds
      (before ++ X :: (mid ++ Y :: after))).HandleClick p =
      (true,
        UIComponent.UIContainer bounds
          (before ++ X :: (mid ++ (HandleClickChildren (Y :: after) p).2.1)),
        (HandleClickChildren (Y :: after) p).2.2) := by
    rw [HandleClick_UIContainer, hsplit, HandleClickChildren_append_handled _ _ p ht]
    simp
  refine ⟨hmain, ?_⟩
  intro hafter
  have htail : HandleClickChildren (Y :: after) p =
      (true, (Y.HandleClick p).2.1 :: after, (Y.HandleClick p).2.2) := by
    rw [HandleClickChildren_cons, HandleClickChildren_none after p hafter, hY]
    simp
  rw [hmain, htail]

/-- Witness for the amended C4: an interactable button `X` and, added after
it, a checkbox `Y`, both at `{0, 0, 10, 10}`, clicked at `(5, 5)`: the checkbox
flips, the button is unchanged and its callback is not invoked. -/
theorem overlap_click_top_first_witness :
    (UIComponent.UIContainer ⟨0, 0, 100, 100⟩
      [UIComponent.Button ⟨0, 0, 10, 10⟩ "X" true FnPtr.sampleFunctionOnClick1,
       UIComponent.Checkbox ⟨0, 0, 10, 10⟩ "Y" "on" "off" false false]).HandleClick ⟨5, 5⟩ =
      (true, UIComponent.UIContainer ⟨0, 0, 100, 100⟩
        [UIComponent.Button ⟨0, 0, 10, 10⟩ "X" true FnPtr.sampleFunctionOnClick1,
         UIComponent.Checkbox ⟨0, 0, 10, 10⟩ "Y" "on" "off" true true], []) :=
  (overlap_click_top_first ⟨0, 0, 100, 100⟩ []
    (UIComponent.Button ⟨0, 0, 10, 10⟩ "X" true FnPtr.sampleFunctionOnClick1) []
    (UIComponent.Checkbox ⟨0, 0, 10, 10⟩ "Y" "on" "off" false false) [] ⟨5, 5⟩
    (by decide)).2 (by decide)

/-- C5. The retained `Button::HandleClick` returns true and calls
`functionOnClick` exactly once if and only if the point lies inside `bounds`
and `interactable` is true; otherwise it returns false and calls nothing. In
both cases no field of the button changes, and a button with
`interactable = false` returns false for every click point. -/
theorem retained_button_click (bounds : Rectangle) (text : String) (interactable : Bool)
    (f : FnPtr) (p : Vector2) :
    ((UIComponent.Button bounds text interactable f).HandleClick p =
        (true, UIComponent.Button bounds text interactable f, [Cmd.Call f]) ↔
      (CheckCollisionPointRec p bounds = true ∧ interactable = true)) ∧
    ((UIComponent.Button bounds text interactable f).HandleClick p =
        (false, UIComponent.Button bounds text interactable f, []) ↔
      ¬ (CheckCollisionPointRec p bounds = true ∧ interactable = true)) ∧
    (∀ q : Vector2, (UIComponent.Button bounds text false f).HandleClick q =
        (false, UIComponent.Button bounds text false f, [])) := by
  refine ⟨?_, ?_, ?_⟩
  · cases hc : CheckCollisionPointRec p bounds <;> cases interactable <;>
      simp [UIComponent.HandleClick, hc]
  · cases hc : CheckCollisionPointRec p bounds <;> cases interactable <;>
      simp [UIComponent.HandleClick, hc]
  · intro q
    simp [UIComponent.HandleClick]

/-! ## Retained mode: the checkbox -/

theorem HandleClick_Checkbox (bounds : Rectangle) (text textOn textOff : String)
    (isChecked h : Bool) (p : Vector2) :
    (UIComponent.Checkbox bounds text textOn textOff isChecked h).HandleClick p =
      if CheckCollisionPointRec p bounds = true then
        (true, UIComponent.Checkbox bounds text textOn textOff (!isChecked) true, [])
      else
        (false, UIComponent.Checkbox bounds text textOn textOff isChecked h, []) := by
  cases h <;> simp [UIComponent.HandleClick]

/-- C12. The retained `Checkbox::HandleClick`: if the point lies inside
`bounds` it returns true, negates `isChecked` and leaves
`hasBeenInteractedWith` true, with no other gating; if the point lies outside
`bounds` it returns false and leaves both fields as they were. -/
theorem retained_checkbox_click (bounds : Rectangle) (text textOn textOff : String)
    (isChecked h : Bool) (p : Vector2) :
    (CheckCollisionPointRec p bounds = true →
      (UIComponent.Checkbox bounds text textOn textOff isChecked h).HandleClick p =
        (true, UIComponent.Checkbox bounds text textOn textOff (!isChecked) true, [])) ∧
    (CheckCollisionPointRec p bounds = false →
      (UIComponent.Checkbox bounds text textOn textOff isChecked h).HandleClick p =
        (false, UIComponent.Checkbox bounds text textOn textOff isChecked h, [])) := by
  rw [HandleClick_Checkbox]
  constructor
  · intro hin
    rw [if_pos hin]
  · intro hout
    rw [hout, if_neg Bool.false_ne_true]

/-- Witness for C12: a checked checkbox at `{0, 0, 10, 10}` clicked at `(5, 5)`
and at `(50, 5)`. -/
theorem retained_checkbox_click_witness :
    (UIComponent.Checkbox ⟨0, 0, 10, 10⟩ "c" "on" "off" true false).HandleClick ⟨5, 5⟩ =
      (true, UIComponent.Checkbox ⟨0, 0, 10, 10⟩ "c" "on" "off" false true, []) ∧
    (UIComponent.Checkbox ⟨0, 0, 10, 10⟩ "c" "on" "off" true false).HandleClick ⟨50, 5⟩ =
      (false, UIComponent.Checkbox ⟨0, 0, 10, 10⟩ "c" "on" "off" true false, []) :=
  ⟨(retained_checkbox_click ⟨0, 0, 10, 10⟩ "c" "on" "off" true false ⟨5, 5⟩).1 (by decide),
   (retained_checkbox_click ⟨0, 0, 10, 10⟩ "c" "on" "off" true false ⟨50, 5⟩).2 (by decide)⟩

/-- A sequence of clicks on a checkbox: `isChecked` is negated once per click
inside the bounds, and `hasBeenInteractedWith` is set by the first of them. -/
theorem clicks_Checkbox (bounds : Rectangle) (text textOn textOff : String)
    (isChecked h : Bool) (ps : List Vector2) :
    clicks (UIComponent.Checkbox bounds text textOn textOff isChecked h) ps =
      UIComponent.Checkbox bounds text textOn textOff
        (if (ps.countP (fun p => CheckCollisionPointRec p bounds)) % 2 = 1 then !isChecked
         else isChecked)
        (h || decide (0 < ps.countP (fun p => CheckCollisionPointRec p bounds))) := by
  induction ps generalizing isChecked h with
  | nil => simp [clicks]
  | cons p ps ih =>
    rw [clicks, HandleClick_Checkbox]
    cases hc : CheckCollisionPointRec p bounds with
    | true =>
      rw [if_pos rfl, ih, List.countP_cons_of_pos _ _ (by simpa using hc)]
      congr 1
      · rcases Nat.mod_two_eq_zero_or_one
          (List.countP (fun p => CheckCollisionPointRec p bounds) ps) with h0 | h1
        · have : (List.countP (fun p => CheckCollisionPointRec p bounds) ps + 1) % 2 = 1 := by
            omega
          simp [h0, this]
        · have : (List.countP (fun p => CheckCollisionPointRec p bounds) ps + 1) % 2 = 0 := by
            omega
          simp [h1, this]
      · simp
    | false =>
      rw [if_neg Bool.false_ne_true, ih, List.countP_cons_of_neg _ _ (by simp [hc])]

/-- C13. A freshly constructed checkbox draws its prompt `text`. After every
sequence of `HandleClick` calls of which `n >= 1` land inside the bounds,
`hasBeenInteractedWith` is true and `isChecked` is true exactly when `n` is
odd; `Draw` then renders `textOn` when `isChecked` is true and `textOff` when
it is false, and this stays so under every further sequence of `HandleClick`
calls. -/
theorem checkbox_one_way_confirmation (bounds : Rectangle) (text textOn textOff : String) :
    (newCheckbox bounds text textOn textOff).Draw =
      [Cmd.DrawRectangleRec bounds Color.RED,
       Cmd.DrawText text bounds.x bounds.y 14 Color.BLACK] ∧
    (∀ ps : List Vector2, 1 ≤ ps.countP (fun p => CheckCollisionPointRec p bounds) →
      clicks (newCheckbox bounds text textOn textOff) ps =
        UIComponent.Checkbox bounds text textOn textOff
          (decide ((ps.countP (fun p => CheckCollisionPointRec p bounds)) % 2 = 1)) true ∧
      (clicks (newCheckbox bounds text textOn textOff) ps).Draw =
        [Cmd.DrawRectangleRec bounds
          (if (ps.countP (fun p => CheckCollisionPointRec p bounds)) % 2 = 1 then Color.BLUE
           else Color.RED),
         Cmd.DrawText
          (if (ps.countP (fun p => CheckCollisionPointRec p bounds)) % 2 = 1 then textOn
           else textOff) bounds.x bounds.y 14 Color.BLACK] ∧
      ∀ more : List Vector2, ∃ isChecked : Bool,
        clicks (clicks (newCheckbox bounds text textOn textOff) ps) more =
          UIComponent.Checkbox bounds text textOn textOff isChecked true ∧
        (clicks (clicks (newCheckbox bounds text textOn textOff) ps) more).Draw =
          [Cmd.DrawRectangleRec bounds (if isChecked = true then Color.BLUE else Color.RED),
           Cmd.DrawText (if isChecked = true then textOn else textOff) bounds.x bounds.y 14
            Color.BLACK]) := by
  constructor
  · simp [newCheckbox, UIComponent.Draw]
  · intro ps hn
    have hpos : 0 < ps.countP (fun p => CheckCollisionPointRec p bounds) := hn
    have hclicks : clicks (newCheckbox bounds text textOn textOff) ps =
        UIComponent.Checkbox bounds text textOn textOff
          (decide ((ps.countP (fun p => CheckCollisionPointRec p bounds)) % 2 = 1)) true := by
      rw [newCheckbox, clicks_Checkbox, decide_eq_true hpos, Bool.or_true]
      by_cases h : (ps.countP (fun p => CheckCollisionPointRec p bounds)) % 2 = 1
      · rw [if_pos h, decide_eq_true h]
        rfl
      · rw [if_neg h, decide_eq_false h]
    have hdraw : ∀ b : Bool, (UIComponent.Checkbox bounds text textOn textOff b true).Draw =
        [Cmd.DrawRectangleRec bounds (if b = true then Color.BLUE else Color.RED),
         Cmd.DrawText (if b = true then textOn else textOff) bounds.x bounds.y 14
          Color.BLACK] := by
      intro b
      cases b <;> simp [UIComponent.Draw]
    refine ⟨hclicks, ?_, ?_⟩
    · rw [hclicks, hdraw]
      simp
    · intro more
      rw [hclicks, clicks_Checkbox, Bool.true_or]
      exact ⟨_, rfl, hdraw _⟩

/-- Witness for C13: a fresh checkbox at `{0, 0, 10, 10}` clicked inside,
outside and inside again is confirmed and unchecked. -/
theorem checkbox_one_way_confirmation_witness :
    clicks (newCheckbox ⟨0, 0, 10, 10⟩ "c" "on" "off") [⟨5, 5⟩, ⟨50, 5⟩, ⟨6, 6⟩] =
      UIComponent.Checkbox ⟨0, 0, 10, 10⟩ "c" "on" "off" false true :=
  ((checkbox_one_way_confirmation ⟨0, 0, 10, 10⟩ "c" "on" "off").2
    [⟨5, 5⟩, ⟨50, 5⟩, ⟨6, 6⟩] (by decide)).1

/-! ## Retained mode: `Draw` -/

theorem DrawChildren_eq (cs : List UIComponent) :
    DrawChildren cs = (cs.map UIComponent.Draw).flatten := by
  induction cs with
  | nil => simp [DrawChildren]
  | cons c cs ih => simp [DrawChildren, ih]

theorem DrawChildren_append (xs ys : List UIComponent) :
    DrawChildren (xs ++ ys) = DrawChildren xs ++ DrawChildren ys := by
  simp [DrawChildren_eq]

/-- C16. The draw calls of a container's `Draw` are the concatenation, in
insertion order, of the draw calls of each child's `Draw`; the container adds
none of its own. A child that is itself a container contributes the calls of
its own children in their place, so the leaves are drawn in pre-order, and an
empty container makes no draw call. -/
theorem container_draw_order (bounds : Rectangle) (children : List UIComponent) :
    (UIComponent.UIContainer bounds children).Draw =
      (children.map UIComponent.Draw).flatten ∧
    (∀ (before : List UIComponent) (inner : Rectangle) (grandchildren after : List UIComponent),
      (UIComponent.UIContainer bounds
        (before ++ UIComponent.UIContainer inner grandchildren :: after)).Draw =
        (before.map UIComponent.Draw).flatten ++
          (grandchildren.map UIComponent.Draw).flatten ++
          (after.map UIComponent.Draw).flatten) ∧
    (∀ child : UIComponent,
      (UIComponent.UIContainer bounds (AddChild children child)).Draw =
        (UIComponent.UIContainer bounds children).Draw ++ child.Draw) ∧
    (UIComponent.UIContainer bounds []).Draw = [] := by
  refine ⟨?_, ?_, ?_, ?_⟩
  · simp [UIComponent.Draw, DrawChildren_eq]
  · intro before inner grandchildren after
    simp [UIComponent.Draw, DrawChildren_eq]
  · intro child
    simp [UIComponent.Draw, DrawChildren_eq, AddChild]
  · simp [UIComponent.Draw, DrawChildren]

/-! ## Retained mode: one click affects at most one leaf -/

mutual
/-- A handled click acts on exactly one leaf of the tree. -/
theorem HandleClick_handled : ∀ (c : UIComponent) (p : Vector2),
    (c.HandleClick p).1 = true → ClickedLeaf c (c.HandleClick p).2.1 (c.HandleClick p).2.2
  | .UIContainer bounds children, p, h => by
    rw [HandleClick_UIContainer] at h ⊢
    obtain ⟨before, x, after, x2, hsplit, hres, hleaf⟩ :=
      HandleClickChildren_handled children p h
    simp only
    rw [hres]
    generalize (HandleClickChildren children p).2.2 = t at hleaf ⊢
    rw [hsplit]
    exact ClickedLeaf.child bounds before x x2 after t hleaf
  | .Button bounds text interactable f, p, h => by
    simp only [UIComponent.HandleClick] at h ⊢
    split_ifs at h ⊢ with hc
    have hi : interactable = true := by
      simp only [Bool.and_eq_true] at hc
      exact hc.2
    subst hi
    exact ClickedLeaf.button bounds text f
  | .Checkbox bounds text textOn textOff isChecked hbiw, p, h => by
    rw [HandleClick_Checkbox] at h ⊢
    split_ifs at h ⊢ with hc
    exact ClickedLeaf.checkbox bounds text textOn textOff isChecked hbiw
  | .Label bounds text, p, h => by
    simp [UIComponent.HandleClick] at h
/-- A click handled by the loop acts on exactly one leaf below one child; the
other children are passed through. -/
theorem HandleClickChildren_handled : ∀ (cs : List UIComponent) (p : Vector2),
    (HandleClickChildren cs p).1 = true →
    ∃ (before : List UIComponent) (x : UIComponent) (after : List UIComponent)
      (x2 : UIComponent),
      cs = before ++ x :: after ∧ (HandleClickChildren cs p).2.1 = before ++ x2 :: after ∧
      ClickedLeaf x x2 (HandleClickChildren cs p).2.2
  | [], p, h => by simp [HandleClickChildren_nil] at h
  | c :: cs, p, h => by
    rw [HandleClickChildren_cons] at h ⊢
    by_cases hl : (HandleClickChildren cs p).1 = true
    · rw [if_pos hl]
      obtain ⟨before, x, after, x2, hsplit, hres, hleaf⟩ := HandleClickChildren_handled cs p hl
      refine ⟨c :: before, x, after, x2, ?_, ?_, hleaf⟩
      · rw [hsplit, List.cons_append]
      · simp only
        rw [hres, List.cons_append]
    · rw [if_neg hl] at h ⊢
      have hl2 : (HandleClickChildren cs p).1 = false := by simpa using hl
      have hleaf := HandleClick_handled c p h
      rw [HandleClickChildren_unhandled cs p hl2]
      refine ⟨[], c, cs, (c.HandleClick p).2.1, rfl, rfl, ?_⟩
      simpa using hleaf
end

/-- C18. For every widget tree and click point: if the root's `HandleClick`
returns false, no node changes and nothing is called; if it returns true,
exactly one leaf is acted on, either one checkbox has `isChecked` negated or
one button's callback is called once, and every other node is unchanged. -/
theorem click_affects_one_leaf (c : UIComponent) (p : Vector2) :
    ((c.HandleClick p).1 = false → c.HandleClick p = (false, c, [])) ∧
    ((c.HandleClick p).1 = true →
      ClickedLeaf c (c.HandleClick p).2.1 (c.HandleClick p).2.2) :=
  ⟨HandleClick_unhandled c p, HandleClick_handled c p⟩

/-- Witness for C18: a button and, in a nested container, a checkbox; a click
on the checkbox. -/
theorem click_affects_one_leaf_witness :
    ClickedLeaf
      (UIComponent.UIContainer ⟨0, 0, 100, 100⟩
        [UIComponent.Button ⟨0, 0, 10, 10⟩ "b" true FnPtr.sampleFunctionOnClick1,
         UIComponent.UIContainer ⟨20, 0, 50, 50⟩
          [UIComponent.Checkbox ⟨20, 0, 10, 10⟩ "c" "on" "off" false false]])
      ((UIComponent.UIContainer ⟨0, 0, 100, 100⟩
        [UIComponent.Button ⟨0, 0, 10, 10⟩ "b" true FnPtr.sampleFunctionOnClick1,
         UIComponent.UIContainer ⟨20, 0, 50, 50⟩
          [UIComponent.Checkbox ⟨20, 0, 10, 10⟩ "c" "on" "off" false false]]).HandleClick
        ⟨25, 5⟩).2.1
      ((UIComponent.UIContainer ⟨0, 0, 100, 100⟩
        [UIComponent.Button ⟨0, 0, 10, 10⟩ "b" true FnPtr.sampleFunctionOnClick1,
         UIComponent.UIContainer ⟨20, 0, 50, 50⟩
          [UIComponent.Checkbox ⟨20, 0, 10, 10⟩ "c" "on" "off" false false]]).HandleClick
        ⟨25, 5⟩).2.2 :=
  (click_affects_one_leaf
    (UIComponent.UIContainer ⟨0, 0, 100, 100⟩
      [UIComponent.Button ⟨0, 0, 10, 10⟩ "b" true FnPtr.sampleFunctionOnClick1,
       UIComponent.UIContainer ⟨20, 0, 50, 50⟩
        [UIComponent.Checkbox ⟨20, 0, 10, 10⟩ "c" "on" "off" false false]])
    ⟨25, 5⟩).2 (by decide)

/-! ## Retained mode: the loop of `main` -/

theorem mainInit_eq : mainInit = mainState true true true false false := rfl

theorem checkboxIsChecked_mainState (i1 i2 i3 isChecked h : Bool) :
    checkboxIsChecked (mainState i1 i2 i3 isChecked h) = isChecked := rfl

/-- `Update` on the widgets of `main`: the widgets keep their shape, only the
two fields of the checkbox can change, and a callback is called only through a
button whose `interactable` is true. -/
theorem Update_mainState (i1 i2 i3 isChecked h : Bool) (inp : Input) :
    (∃ isChecked2 h2 : Bool,
      ((mainState i1 i2 i3 isChecked h).Update inp).1 = mainState i1 i2 i3 isChecked2 h2) ∧
    (∀ f : FnPtr, Cmd.Call f ∈ ((mainState i1 i2 i3 isChecked h).Update inp).2 →
      i1 = true ∨ i2 = true ∨ i3 = true) := by
  unfold UILibrary.Update
  cases hr : inp.IsMouseButtonReleased with
  | false =>
    simp only [Bool.false_eq_true, if_false]
    exact ⟨⟨isChecked, h, rfl⟩, by simp⟩
  | true =>
    simp only [if_true]
    cases hc : CheckCollisionPointRec inp.GetMousePosition ⟨10, 60, 100, 40⟩ <;>
    cases h1 : CheckCollisionPointRec inp.GetMousePosition ⟨120, 10, 80, 40⟩ <;>
    cases h2 : CheckCollisionPointRec inp.GetMousePosition ⟨210, 10, 80, 40⟩ <;>
    cases h3 : CheckCollisionPointRec inp.GetMousePosition ⟨300, 10, 80, 40⟩ <;>
    cases i1 <;> cases i2 <;> cases i3 <;>
    simp [mainState, HandleClick_UIContainer, HandleClickChildren_cons, HandleClickChildren_nil,
      HandleClick_Checkbox, UIComponent.HandleClick, hc, h1, h2, h3]

theorem syncInteractable_mainState (i1 i2 i3 isChecked h : Bool) :
    syncInteractable (mainState i1 i2 i3 isChecked h) =
      mainState isChecked isChecked isChecked isChecked h := by
  cases isChecked <;> rfl

/-- After one iteration of the loop the three buttons' `interactable` flags
equal `checkbox.isChecked`. -/
theorem mainFrame_mainState (i1 i2 i3 isChecked h : Bool) (inp : Input) :
    ∃ isChecked2 h2 : Bool,
      (mainFrame (mainState i1 i2 i3 isChecked h) inp).1 =
        mainState isChecked2 isChecked2 isChecked2 isChecked2 h2 := by
  obtain ⟨isChecked2, h2, hu⟩ := (Update_mainState i1 i2 i3 isChecked h inp).1
  refine ⟨isChecked2, h2, ?_⟩
  simp only [mainFrame]
  rw [hu, syncInteractable_mainState]

theorem mainLoop_append (ui : UILibrary) (xs ys : List Input) :
    mainLoop ui (xs ++ ys) = mainLoop (mainLoop ui xs) ys := by
  induction xs generalizing ui with
  | nil => rfl
  | cons x xs ih => simp [mainLoop, ih]

/-- At the start of every iteration the widgets of `main` have their shape. -/
theorem mainLoop_shape (inputs : List Input) (i1 i2 i3 isChecked h : Bool) :
    ∃ j1 j2 j3 isChecked2 h2 : Bool,
      mainLoop (mainState i1 i2 i3 isChecked h) inputs = mainState j1 j2 j3 isChecked2 h2 := by
  induction inputs generalizing i1 i2 i3 isChecked h with
  | nil => exact ⟨i1, i2, i3, isChecked, h, rfl⟩
  | cons x xs ih =>
    obtain ⟨c, h2, hf⟩ := mainFrame_mainState i1 i2 i3 isChecked h x
    rw [mainLoop, hf]
    exact ih c c c c h2

/-- At the start of every iteration but the first, the three buttons'
`interactable` flags equal `checkbox.isChecked`. -/
theorem mainLoop_synced (inputs : List Input) (hne : inputs ≠ []) :
    ∃ isChecked h : Bool,
      mainLoop mainInit inputs = mainState isChecked isChecked isChecked isChecked h := by
  rcases List.eq_nil_or_concat inputs with rfl | ⟨init, last, rfl⟩
  · exact absurd rfl hne
  obtain ⟨j1, j2, j3, c, h, hs⟩ := mainLoop_shape init true true true false false
  rw [List.concat_eq_append, mainLoop_append, mainInit_eq, hs, mainLoop, mainLoop]
  exact mainFrame_mainState j1 j2 j3 c h last

/-- From the second iteration on, a callback is called during `Update` only
if `checkbox.isChecked` holds at the start of that `Update`. -/
theorem Update_gated_once_synced (inputs : List Input) (hne : inputs ≠ [])
    (inp : Input) (f : FnPtr)
    (hcall : Cmd.Call f ∈ ((mainLoop mainInit inputs).Update inp).2) :
    checkboxIsChecked (mainLoop mainInit inputs) = true := by
  obtain ⟨c, h, hs⟩ := mainLoop_synced inputs hne
  rw [hs] at hcall ⊢
  rw [checkboxIsChecked_mainState]
  rcases (Update_mainState c c c c h inp).2 f hcall with h1 | h1 | h1 <;> exact h1

/-- With the button up before the first sample, the first frame of a loop
signals no release. -/
theorem polledInputs_first_not_released (polls : List (Bool × Vector2)) (inp : Input)
    (after : List Input) (h : polledInputs false polls = inp :: after) :
    inp.IsMouseButtonReleased = false := by
  cases polls with
  | nil => simp [polledInputs] at h
  | cons x rest =>
    obtain ⟨current, position⟩ := x
    simp only [polledInputs, List.cons.injEq] at h
    rw [← h.1]
    simp [MouseButtonState.input]

/-- `Update` does nothing in a frame that signals no release. -/
theorem Update_not_released (ui : UILibrary) (inp : Input)
    (h : inp.IsMouseButtonReleased = false) : ui.Update inp = (ui, []) := by
  simp [UILibrary.Update, h]

/-- C20. In the loop of `main` (`Update`, then the copy of `checkbox.isChecked`
into the three buttons' `interactable` flags, then `Draw`), for every sequence
of frame inputs, sampled from a button that is up before the first sample, and
for every iteration of the loop, the first included: a button's callback is
called during `Update` only if `checkbox.isChecked` was true at the start of
that `Update`. Here `before` are the inputs of the iterations already made and
`inp` is the input of the current one. -/
theorem callbacks_gated_by_checkbox (polls : List (Bool × Vector2)) (before : List Input)
    (inp : Input) (after : List Input) (f : FnPtr)
    (hsplit : polledInputs false polls = before ++ inp :: after)
    (hcall : Cmd.Call f ∈ ((mainLoop mainInit before).Update inp).2) :
    checkboxIsChecked (mainLoop mainInit before) = true := by
  cases before with
  | nil =>
    have hr := polledInputs_first_not_released polls inp after hsplit
    rw [Update_not_released _ inp hr] at hcall
    exact absurd hcall (List.not_mem_nil _)
  | cons b bs => exact Update_gated_once_synced (b :: bs) (List.cons_ne_nil b bs) inp f hcall

/-- Witness for C20: the button is pressed and released on the checkbox at
`(20, 70)` and then pressed and released on the first button at `(130, 20)`;
the callback of the first button is called in the fourth iteration, with
`checkbox.isChecked` true. -/
theorem callbacks_gated_by_checkbox_witness :
    Cmd.Call FnPtr.sampleFunctionOnClick1 ∈
      ((mainLoop mainInit [⟨true, false, ⟨20, 70⟩⟩, ⟨false, true, ⟨20, 70⟩⟩,
        ⟨true, false, ⟨130, 20⟩⟩]).Update ⟨false, true, ⟨130, 20⟩⟩).2 ∧
    checkboxIsChecked (mainLoop mainInit [⟨true, false, ⟨20, 70⟩⟩, ⟨false, true, ⟨20, 70⟩⟩,
        ⟨true, false, ⟨130, 20⟩⟩]) = true :=
  ⟨by decide,
   callbacks_gated_by_checkbox
    [(true, ⟨20, 70⟩), (false, ⟨20, 70⟩), (true, ⟨130, 20⟩), (false, ⟨130, 20⟩)]
    [⟨true, false, ⟨20, 70⟩⟩, ⟨false, true, ⟨20, 70⟩⟩, ⟨true, false, ⟨130, 20⟩⟩]
    ⟨false, true, ⟨130, 20⟩⟩ [] FnPtr.sampleFunctionOnClick1 (by decide) (by decide)⟩

end Retained
